import Mathlib

/-!
# Verification of `sbomaudit` (audit.py) against its specification

Shallow embedding of `src/sbomaudit/audit.py`.  Python `None`-able values
become `Option`; the function-scoped local variables of `audit_sbom` that may
be read while unbound (`name`, `version`, `purl`, `creation_time`, `type` in
`_setup`) are modelled explicitly, with a read of an unbound variable raising
a `PyErr` (Python `NameError` / `UnboundLocalError`).  External services
(license scanner, PURL parser, package registries, the clock) are abstracted
as an `Env` of oracle functions, faithful to the call sites in the source.
-/

namespace SbomAudit

/-- Outcome state of a recorded check (`state` in `_component_message`). -/
inductive CState where
  | pass
  | fail
deriving DecidableEq, Repr

/-- One entry of a component report: `{"text": message, "state": state}`. -/
structure Element where
  text : String
  state : CState
deriving DecidableEq, Repr

/-- A `{"Fail": _, "Pass": _}` counter pair (`check_count`, `policy_check_count`). -/
structure Counts where
  pass : Nat
  fail : Nat
deriving DecidableEq, Repr

/-- Per-file element stored in `self.file_component`:
`{"name": name, "id": id, "reports": component}`. -/
structure FileElem where
  ename : Option String
  eid : Option String
  reports : List Element
deriving DecidableEq, Repr

/-- Per-package element stored in `self.package_component`:
`{"name": name, "version": version, "reports": component}`. -/
structure PkgElem where
  ename : Option String
  eversion : Option String
  reports : List Element
deriving DecidableEq, Repr

/-- A parsed PURL as used by the code (`purl["type"]`, `purl["name"]`). -/
structure Purl where
  ptype : String
  pname : String
deriving DecidableEq, Repr

/-- An external reference triple `external_ref[0] / [1] / [2]`
(category, reference type, locator). -/
structure ExtRef where
  cat : String
  rtype : String
  locator : String
deriving DecidableEq, Repr

/-- A file record as returned by `sbom_parser.get_files()`; absent dictionary
keys are `none`. -/
structure FileRec where
  id : Option String
  name : Option String
  filetype : Option (List String)
  licenseconcluded : Option String
  copyrighttext : Option String
deriving DecidableEq, Repr

/-- A package record as returned by `sbom_parser.get_packages()`. -/
structure PackageRec where
  id : Option String
  name : Option String
  version : Option String
  supplier : Option String
  licenseconcluded : Option String
  externalreference : Option (List ExtRef)
deriving DecidableEq, Repr

/-- A relationship record (`r.get("source")`, `r.get("target")`). -/
structure RelRec where
  source : Option String
  target : Option String
deriving DecidableEq, Repr

/-- The parsed SBOM handed to `audit_sbom`: packages, files, relationships and
the document fields read through `SBOMDocument`. -/
structure SBOM where
  doctype : Option String
  docversion : Option String
  created : Option String
  creator : List String
  files : List FileRec
  packages : List PackageRec
  relationships : List RelRec
deriving DecidableEq, Repr

/-- Python runtime errors that `audit.py` can actually raise: reading a local
variable that was never assigned (`NameError` / `UnboundLocalError`). -/
inductive PyErr where
  | nameUnbound
  | versionUnbound
  | purlUnbound
  | creationTimeUnbound
  | categoryUnbound
deriving DecidableEq, Repr

/-- Oracle functions abstracting the external libraries called by the code:
`LicenseScanner`, `PackageURL.from_string` (`none` models `ValueError`),
`find_latest_version` / `get_package_info` lookups, and the release-age
computation `(utcnow - dateutil.parse(date)).days`. -/
structure Env where
  findLicense : Option String → String
  osiApproved : Option String → Bool
  deprecated : Option String → Bool
  parsePurl : String → Option Purl
  findLatestVersion : Option String → Option String → Option String × Option String
  packageInfo : Option String → String → Option String × Option String
  ageDays : String → Int

/-- The mutable recorder state of an `SBOMaudit` object (the fields of `self`
that `audit_sbom` reads and writes), together with the function-scoped local
variables whose staleness/unboundness is observable (`name`, `version`,
`purl`). -/
structure St where
  verbose : Bool
  checkCount : Counts
  policyCheckCount : Counts
  component : List Element
  policyComponent : List Element
  fileComponent : List FileElem
  packageComponent : List PkgElem
  auditMetadata : List Element
  auditFiles : List FileElem
  auditPackages : List PkgElem
  auditPolicy : List Element
  auditRelationships : List Element
  auditSummary : List Element
  console : List String
  nameVar : Option (Option String)
  versionVar : Option (Option String)
  purlVar : Option Purl
deriving DecidableEq, Repr

/-- The state of a freshly constructed `SBOMaudit` (`__init__`). -/
def initSt (verbose : Bool) : St :=
  { verbose := verbose
    checkCount := ⟨0, 0⟩
    policyCheckCount := ⟨0, 0⟩
    component := []
    policyComponent := []
    fileComponent := []
    packageComponent := []
    auditMetadata := []
    auditFiles := []
    auditPackages := []
    auditPolicy := []
    auditRelationships := []
    auditSummary := []
    console := []
    nameVar := none
    versionVar := none
    purlVar := none }

/-- Python string interpolation of a possibly-`None` value (`f"{x}"`). -/
def pyOpt : Option String → String
  | none => "None"
  | some s => s

/-- Embeds `DecidableEq` for `Except`, needed to evaluate whole audit runs with
`decide`. -/
instance {ε α : Type} [DecidableEq ε] [DecidableEq α] : DecidableEq (Except ε α)
  | .ok a, .ok b =>
    if h : a = b then isTrue (h ▸ rfl) else isFalse (fun c => h (Except.ok.inj c))
  | .ok _, .error _ => isFalse (fun c => Except.noConfusion c)
  | .error _, .ok _ => isFalse (fun c => Except.noConfusion c)
  | .error e, .error f =>
    if h : e = f then isTrue (h ▸ rfl) else isFalse (fun c => h (Except.error.inj c))

/-- Python `s.startswith(pre)` (on the character-list model of strings, so
that concrete runs evaluate inside the kernel). -/
def pyStartsWith (s pre : String) : Bool := List.isPrefixOf pre.data s.data

/-- Python `s.strip()`. -/
def pyStrip (s : String) : String :=
  ⟨((s.data.dropWhile Char.isWhitespace).reverse.dropWhile Char.isWhitespace).reverse⟩

/-- Python `s.replace("[", "").replace("]", "")`: removing single-character
substrings is character filtering. -/
def pyRemoveBrackets (s : String) : String :=
  ⟨s.data.filter (fun c => !(c == '[' || c == ']'))⟩

/-- Python `s.lower()`. -/
def pyToLower (s : String) : String := ⟨s.data.map Char.toLower⟩

/-- Python `sep.join(parts)`. -/
def pyJoin (sep : String) : List String → String
  | [] => ""
  | [s] => s
  | s :: rest => s ++ sep ++ pyJoin sep rest

/-- Python truthiness of a string-or-`None` value (used by `_check` when a raw
value such as `name` or `supplier` is passed as the check condition). -/
def truthy : Option String → Bool
  | none => false
  | some s => !s.data.isEmpty

/-- Embeds `_send_to_console`: writes only when `console_out` is set. -/
def sendToConsole (consoleOut : Bool) (st : St) (text : String) : St :=
  if consoleOut then { st with console := st.console ++ [text] } else st

/-- Embeds `_component_message`: appends an element to the ordinary or the policy
component list. -/
def componentMessage (st : St) (message : String) (state : CState) (policy : Bool) : St :=
  if policy then
    { st with policyComponent := st.policyComponent ++ [⟨message, state⟩] }
  else
    { st with component := st.component ++ [⟨message, state⟩] }

/-- Embeds `_show_text`: green console line plus a `Pass` component entry.  Does not
touch any counter. -/
def showText (consoleOut : Bool) (st : St) (text : String) (policy : Bool) : St :=
  componentMessage (sendToConsole consoleOut st ("[x] " ++ text)) text .pass policy

/-- The message reported for a failing check: the value if one was passed,
else the failure text when non-empty, else the bare text. -/
def failMsg (text : String) (value : Option String) (failureText : String) : String :=
  match value with
  | some v => text ++ ": " ++ v
  | none => if failureText.length > 0 then text ++ ": " ++ failureText else text

/-- Embeds `_show_result`: the single check recorder.  A passing check is shown only
in verbose mode and bumps the `Pass` counter of its tier; a failing check is
reported (with `value`, else non-empty `failure_text`, else bare) and bumps
the `Fail` counter of its tier. -/
def showResult (consoleOut : Bool) (st : St) (text : String) (state : Bool)
    (value : Option String) (failureText : String) (policy : Bool) : St :=
  if state then
    let st := if st.verbose then showText consoleOut st text policy else st
    if policy then
      { st with policyCheckCount :=
          ⟨st.policyCheckCount.pass + 1, st.policyCheckCount.fail⟩ }
    else
      { st with checkCount := ⟨st.checkCount.pass + 1, st.checkCount.fail⟩ }
  else
    let msg := failMsg text value failureText
    let st := componentMessage (sendToConsole consoleOut st ("[ ] " ++ msg)) msg .fail policy
    if policy then
      { st with policyCheckCount :=
          ⟨st.policyCheckCount.pass, st.policyCheckCount.fail + 1⟩ }
    else
      { st with checkCount := ⟨st.checkCount.pass, st.checkCount.fail + 1⟩ }

/-- Embeds `_check`: `_show_result` without a value argument. -/
def check (consoleOut : Bool) (st : St) (text : String) (value : Bool)
    (failureText : String) (policy : Bool) : St :=
  showResult consoleOut st text value none failureText policy

/-- Embeds `_check_value`: membership test reported with the data item as value. -/
def checkValue (consoleOut : Bool) (st : St) (text : String) (values : List String)
    (dataItem : Option String) : St :=
  showResult consoleOut st text (match dataItem with
    | none => false
    | some s => values.contains s) dataItem "MISSING" false

/-- Embeds `_heading`: console-only panel. -/
def heading (consoleOut : Bool) (st : St) (title : String) : St :=
  if consoleOut then { st with console := st.console ++ [title] } else st

/-! ## Allow/deny list loading (`process_file` / `_setup`) -/

/-- An allow or deny list: category name to entries, insertion-ordered. -/
abbrev Dict := List (String × List String)

/-- Embeds `data_list[type] = []`: set (or create) a category, replacing any prior
contents. -/
def dictSet (d : Dict) (k : String) : Dict :=
  if (d.map Prod.fst).contains k then
    d.map (fun p => if p.fst = k then (k, ([] : List String)) else p)
  else
    d ++ [(k, [])]

/-- Embeds `data_list[type].append(v)`. -/
def dictAppend (d : Dict) (k : String) (v : String) : Dict :=
  d.map (fun p => if p.fst = k then (p.fst, p.snd ++ [v]) else p)

/-- The category name extracted from a `[...]` line:
`line.replace("[", "").replace("]", "").strip()`. -/
def parseCategory (line : String) : String :=
  pyStrip (pyRemoveBrackets line)

/-- The loop body of `_setup`, threading the current category (`type`), which
starts unbound; appending before any category line raises `NameError`. -/
def setupGo (current : Option String) (d : Dict) : List String → Except PyErr Dict
  | [] => .ok d
  | line :: rest =>
    if pyStartsWith line "#" then setupGo current d rest
    else if pyStartsWith line "[" then
      let t := parseCategory line
      setupGo (some t) (dictSet d t) rest
    else
      match current with
      | none => .error .categoryUnbound
      | some c => setupGo current (dictAppend d c (pyStrip line)) rest

/-- Embeds `_setup(filename, data_list)` on the file's lines. -/
def setup (d : Dict) (lines : List String) : Except PyErr Dict :=
  setupGo none d lines

/-- Embeds `process_file`: `none` contents model a non-existent file (no-op). -/
def processFile (contents : Option (List String)) (d : Dict) : Except PyErr Dict :=
  match contents with
  | none => .ok d
  | some lines => setup d lines

/-! ## File summary section (`audit_sbom` lines 207-334) -/

/-- The `if len(self.component) > 0: ... self.file_component.append(...)` block
at the end of each file iteration.  Reading `name` raises `NameError` when it
was never assigned (first record lacking an `id`). -/
def fileElementBlock (st : St) (idv : Option String) : Except PyErr St :=
  if st.component.isEmpty then .ok st
  else
    match st.nameVar with
    | none => .error .nameUnbound
    | some nm =>
      .ok { st with fileComponent := st.fileComponent ++ [⟨nm, idv, st.component⟩],
                    component := [] }

/-- The check chain of a file-loop iteration whose record has an id (the
`else` branch of `if id is None`), from the `name = file.get(...)` binding to
the copyright check. -/
def auditOneFileChecks (co lc : Bool) (allowLic denyLic : Option (List String)) (env : Env)
    (st : St) (file : FileRec) (idv : String) : St :=
  let name := file.name
  let fileTypeS := file.filetype.map (pyJoin ", ")
  let license := file.licenseconcluded
  let spdxLicense := !(["UNKNOWN", "NOASSERTION"].contains (env.findLicense license))
  let copyright := file.copyrighttext
  let st := { st with nameVar := some name }
  let st := check co st ("File name specified - " ++ pyOpt name) (truthy name) "MISSING" false
  match name with
  | some _ =>
      let st := check co st ("File type identified - " ++ pyOpt name ++ " : " ++
        pyOpt (fileTypeS)) file.filetype.isSome "MISSING" false
      let st := check co st ("License specified - " ++ pyOpt name ++ " : " ++ pyOpt license)
        (!(license == none || license == some "NOASSERTION")) "" false
      let st :=
        if lc then
          let st := check co st ("SPDX Compatible License id included for " ++ pyOpt name)
            spdxLicense (pyOpt license) false
          let st := check co st ("OSI Approved license for " ++ pyOpt name)
            (env.osiApproved license) "MISSING" false
          check co st ("Non-deprecated license for " ++ pyOpt name)
            (!env.deprecated license) "MISSING" false
        else st
      let st :=
        match allowLic with
        | some al => check co st ("Allowed License check for " ++ pyOpt name)
            (match license with | none => false | some l => al.contains l)
            (pyOpt license ++ " not allowed") true
        | none => st
      let st :=
        match denyLic with
        | some dl => check co st ("Denied License check for " ++ pyOpt name)
            (!(match license with | none => false | some l => dl.contains l))
            (pyOpt license ++ " not allowed") true
        | none => st
      check co st ("Copyright defined - " ++ pyOpt name ++ " : " ++ pyOpt copyright)
        (!(copyright == none || copyright == some "NOASSERTION")) "" false
  | none =>
      let st := check co st ("File type identified - " ++ idv ++ " : " ++
        pyOpt (fileTypeS)) file.filetype.isSome "MISSING" false
      let st := check co st ("License specified - " ++ idv ++ " : " ++ pyOpt license)
        (!(license == none || license == some "NOASSERTION")) "" false
      let st :=
        if lc then
          let st := check co st ("SPDX Compatible License id included for " ++ idv)
            spdxLicense (pyOpt license) false
          let st := check co st ("OSI Approved license for " ++ idv)
            (env.osiApproved license) "MISSING" false
          check co st ("Non-deprecated license for " ++ pyOpt name)
            (!env.deprecated license) "MISSING" false
        else st
      let st :=
        match allowLic with
        | some al => check co st ("Allowed License check for " ++ idv)
            (match license with | none => false | some l => al.contains l)
            (pyOpt license ++ " not allowed") true
        | none => st
      let st :=
        match denyLic with
        | some dl => check co st ("Denied License check for " ++ idv)
            (!(match license with | none => false | some l => dl.contains l))
            (pyOpt license ++ " not allowed") true
        | none => st
      check co st ("Copyright defined - " ++ idv ++ " : " ++ pyOpt copyright)
        (!(copyright == none || copyright == some "NOASSERTION")) "" false

/-- The body of `for file in files`, returning the updated state and the
updated `files_valid` flag. -/
def auditOneFile (co lc : Bool) (allowLic denyLic : Option (List String)) (env : Env)
    (st : St) (fv : Bool) (file : FileRec) : Except PyErr (St × Bool) :=
  match file.id with
  | none =>
    let st := check co st "File id missing" false "MISSING" false
    match fileElementBlock st none with
    | .error e => .error e
    | .ok st => .ok (st, false)
  | some idv =>
    match fileElementBlock (auditOneFileChecks co lc allowLic denyLic env st file idv)
        file.id with
    | .error e => .error e
    | .ok st => .ok (st, if file.name == none then false else fv)

/-- Embeds `for file in files` as a fold. -/
def auditFilesLoop (co lc : Bool) (allowLic denyLic : Option (List String)) (env : Env) :
    List FileRec → St → Bool → Except PyErr (St × Bool)
  | [], st, fv => .ok (st, fv)
  | f :: fs, st, fv =>
    match auditOneFile co lc allowLic denyLic env st fv f with
    | .error e => .error e
    | .ok (st, fv) => auditFilesLoop co lc allowLic denyLic env fs st fv

/-- The whole `if len(files) > 0:` block, also modelling the
`files_valid = True` initialisation. -/
def fileSection (co lc : Bool) (allowLic denyLic : Option (List String)) (env : Env)
    (files : List FileRec) (st : St) : Except PyErr (St × Bool) :=
  if files.isEmpty then .ok (st, true)
  else
    let st := heading co st "File Summary"
    let failCount := st.checkCount.fail
    match auditFilesLoop co lc allowLic denyLic env files st true with
    | .error e => .error e
    | .ok (st, fv) =>
      let st := check co st "NTIA compliant" fv "FAILED" false
      let st := if !st.verbose && st.checkCount.fail == failCount
        then showText co st "File Summary" false else st
      .ok ({ st with auditFiles := st.fileComponent, component := [] }, fv)

/-! ## Package summary section (`audit_sbom` lines 336-525) -/

/-- An un-gated `print` (the debug trace inside the external-reference loop). -/
def debugPrint (st : St) (text : String) : St :=
  { st with console := st.console ++ [text] }

/-- Lines 452-480: the ordinary-tier latest-version check, then the
policy-tier mature-version check (whenever a release date was resolved) and
the policy-tier staleness check (only when a differing latest version was
resolved). -/
def versionAndAgeChecks (co : Bool) (minAge maxAge : Int) (ageDays : String → Int)
    (st : St) (name version : Option String) (lv ld : Option String) : St :=
  let st :=
    match lv with
    | some l =>
      check co st ("Using latest version of package " ++ pyOpt name) (version == some l)
        ("Version is " ++ pyOpt version ++ "; latest is " ++ l) false
    | none => st
  match ld with
  | none => st
  | some d =>
    let days := ageDays d
    let report := "Age of release is " ++ toString days ++ " days"
    let st := check co st ("Using mature version of package " ++ pyOpt name)
      (decide (days > minAge)) report true
    match lv with
    | none => st
    | some l =>
      if version == some l then st
      else check co st ("Using old version of package " ++ pyOpt name)
        (decide (days < maxAge)) report true

/-- The body of `for external_ref in external_refs` (lines 361-397).  The
accumulator carries `latest_version`, `latest_date`, `purl_used`, `cpe_used`.
A locator that fails PURL parsing (`env.parsePurl _ = none`, the `ValueError`
case) silently resets `purl_used`; the debug trace then reads `purl`, which
raises `NameError` when no PURL was ever parsed in this audit. -/
def processRef (dbg offline : Bool) (env : Env) (name version : Option String)
    (acc : St × Option String × Option String × Bool × Bool) (ref : ExtRef) :
    Except PyErr (St × Option String × Option String × Bool × Bool) :=
  let (st, lv, ld, purlUsed, cpeUsed) := acc
  if ref.cat == "PACKAGE-MANAGER" || ref.cat == "PACKAGE_MANAGER" then
    let res :=
      match env.parsePurl ref.locator with
      | some p =>
        let lvld :=
          if !offline then
            if p.ptype == "pypi" then
              ((env.findLatestVersion name none).fst, (env.findLatestVersion name version).snd)
            else
              env.packageInfo name p.ptype
          else (lv, ld)
        ({ st with purlVar := some p }, lvld.fst, lvld.snd, true)
      | none => (st, lv, ld, false)
    match res with
    | (st, lv, ld, pu) =>
      if dbg then
        match st.purlVar with
        | none => .error .purlUnbound
        | some p =>
          .ok (debugPrint st ("Version check for " ++ pyOpt name ++ " within " ++ p.ptype ++
                " ecosystem. " ++ pyOpt lv ++ " " ++ pyOpt ld), lv, ld, pu, cpeUsed)
      else .ok (st, lv, ld, pu, cpeUsed)
  else if ref.rtype == "cpe22Type" || ref.rtype == "cpe23Type" then
    .ok (st, lv, ld, purlUsed, true)
  else .ok (st, lv, ld, purlUsed, cpeUsed)

/-- Embeds `for external_ref in external_refs` as a fold. -/
def refsLoop (dbg offline : Bool) (env : Env) (name version : Option String) :
    List ExtRef → (St × Option String × Option String × Bool × Bool) →
    Except PyErr (St × Option String × Option String × Bool × Bool)
  | [], acc => .ok acc
  | r :: rs, acc =>
    match processRef dbg offline env name version acc r with
    | .error e => .error e
    | .ok acc => refsLoop dbg offline env name version rs acc

/-- The per-package element-appending block, reading the function-scoped
`name` and `version` variables. -/
def pkgElementBlock (st : St) : Except PyErr St :=
  if st.component.isEmpty then .ok st
  else
    match st.nameVar with
    | none => .error .nameUnbound
    | some nm =>
      match st.versionVar with
      | none => .error .versionUnbound
      | some ver =>
        .ok { st with packageComponent := st.packageComponent ++ [⟨nm, ver, st.component⟩],
                      component := [] }

/-- The summarising check chain of a package-loop iteration (`# Now summarise`
onwards), for a record that has an id, given the results of the
external-reference loop. -/
def auditOnePackageChecks (co lc cc pc : Bool) (minAge maxAge : Int)
    (allowLic denyLic allowPkg denyPkg : Option (List String)) (env : Env)
    (st : St) (pkg : PackageRec) (idv : String) (lv ld : Option String)
    (purlUsed cpeUsed : Bool) : St :=
  let name := pkg.name
  let version := pkg.version
  let supplier := pkg.supplier
  let license := pkg.licenseconcluded.getD "NOT KNOWN"
  let spdxLicense := !(["UNKNOWN", "NOASSERTION"].contains (env.findLicense (some license)))
  match name with
  | some n =>
          let st :=
            match allowPkg with
            | some ap => check co st ("Allowed Package check for package " ++ n)
                (ap.contains n) (n ++ " not allowed") true
            | none => st
          let st :=
            match denyPkg with
            | some dp => check co st ("Denied Package check for package " ++ n)
                (!dp.contains n) (n ++ " not allowed") true
            | none => st
          let st := check co st ("Supplier included for package " ++ n)
            (truthy supplier) "MISSING" false
          let st := check co st ("Version included for package " ++ n)
            (truthy version) "MISSING" false
          let st := check co st ("License included for package " ++ n)
            (!(license == "NOT KNOWN" || license == "NOASSERTION")) "MISSING" false
          let st :=
            if lc && !(license == "NOT KNOWN" || license == "NOASSERTION") then
              let st := check co st ("SPDX Compatible License id included for package " ++ n)
                spdxLicense license false
              let st := check co st ("OSI Approved license for " ++ n)
                (env.osiApproved (some license)) "MISSING" false
              check co st ("Non-deprecated license for " ++ n)
                (!env.deprecated (some license)) "MISSING" false
            else st
          let st :=
            match allowLic with
            | some al => check co st ("Allowed License check for package " ++ n)
                (al.contains license) (license ++ " not allowed") true
            | none => st
          let st :=
            match denyLic with
            | some dl => check co st ("Denied License check for package " ++ n)
                (!dl.contains license) (license ++ " not allowed") true
            | none => st
          let st := versionAndAgeChecks co minAge maxAge env.ageDays st name version lv ld
          let st :=
            if cc then check co st ("CPE name included for package " ++ n) cpeUsed "MISSING" false
            else st
          if pc then
            let st := check co st ("PURL included for package " ++ n) purlUsed
              "MISSING or INVALID" false
            if purlUsed then
              match st.purlVar with
              | some p => check co st ("PURL name compatible with package " ++ n)
                  (p.pname == n) "MISSING" false
              | none => st
            else st
          else st
  | none =>
      check co st ("Package name missing for " ++ idv) false "MISSING" false

/-- The body of `for package in packages`, returning the updated state and the
updated `packages_valid` flag. -/
def auditOnePackage (co lc cc pc dbg offline : Bool) (minAge maxAge : Int)
    (allowLic denyLic allowPkg denyPkg : Option (List String)) (env : Env)
    (st : St) (pv : Bool) (pkg : PackageRec) : Except PyErr (St × Bool) :=
  match pkg.id with
  | none =>
    let st := check co st "Package id missing" false "MISSING" false
    match pkgElementBlock st with
    | .error e => .error e
    | .ok st => .ok (st, false)
  | some idv =>
    let st := { st with nameVar := some pkg.name, versionVar := some pkg.version }
    match refsLoop dbg offline env pkg.name pkg.version (pkg.externalreference.getD [])
        (st, none, none, false, false) with
    | .error e => .error e
    | .ok (st, lv, ld, purlUsed, cpeUsed) =>
      match pkgElementBlock (auditOnePackageChecks co lc cc pc minAge maxAge
          allowLic denyLic allowPkg denyPkg env st pkg idv lv ld purlUsed cpeUsed) with
      | .error e => .error e
      | .ok st =>
        .ok (st, if pkg.name == none || pkg.version == none || pkg.supplier == none ||
          pkg.supplier == some "NOASSERTION" then false else pv)

/-- Embeds `for package in packages` as a fold. -/
def auditPkgsLoop (co lc cc pc dbg offline : Bool) (minAge maxAge : Int)
    (allowLic denyLic allowPkg denyPkg : Option (List String)) (env : Env) :
    List PackageRec → St → Bool → Except PyErr (St × Bool)
  | [], st, pv => .ok (st, pv)
  | p :: ps, st, pv =>
    match auditOnePackage co lc cc pc dbg offline minAge maxAge
        allowLic denyLic allowPkg denyPkg env st pv p with
    | .error e => .error e
    | .ok (st, pv) => auditPkgsLoop co lc cc pc dbg offline minAge maxAge
        allowLic denyLic allowPkg denyPkg env ps st pv

/-- The whole `if len(packages) > 0:` block, also modelling the
`packages_valid = True` initialisation. -/
def packageSection (co lc cc pc dbg offline : Bool) (minAge maxAge : Int)
    (allowLic denyLic allowPkg denyPkg : Option (List String)) (env : Env)
    (pkgs : List PackageRec) (st : St) : Except PyErr (St × Bool) :=
  if pkgs.isEmpty then .ok (st, true)
  else
    let st := heading co st "Package Summary"
    let failCount := st.checkCount.fail
    match auditPkgsLoop co lc cc pc dbg offline minAge maxAge
        allowLic denyLic allowPkg denyPkg env pkgs st true with
    | .error e => .error e
    | .ok (st, pv) =>
      let st := check co st "NTIA compliant" pv "FAILED" false
      let st := if !st.verbose && st.checkCount.fail == failCount
        then showText co st "Package Summary" false else st
      .ok ({ st with auditPackages := st.packageComponent, component := [] }, pv)

/-! ## Format, relationships, verdict and summary sections -/

/-- Embeds `audit_sbom` lines 160-197: SBOM format summary.  Returns the state and
`creator_identified`, `creation_time` (which is *left unassigned* in the
invalid branch, hence `Option Bool`), and `relationships_valid`. -/
def formatSection (co : Bool) (sbom : SBOM) (st : St) : St × Bool × Option Bool × Bool :=
  let st := heading co st "SBOM Format Summary"
  let failCount := st.checkCount.fail
  let st := { st with component := [] }
  let res :=
    match sbom.doctype with
    | some t =>
      let st :=
        if pyToLower t == "spdx" then
          checkValue co st "Up to date SPDX Version" ["SPDX-2.2", "SPDX-2.3"] sbom.docversion
        else
          checkValue co st "Up to date CycloneDX Version" ["1.3", "1.4", "1.5"] sbom.docversion
      let creationTime := sbom.created.isSome
      let creatorIdentified := decide (sbom.creator.length > 0)
      let relationshipsValid := decide (sbom.relationships.length > 0)
      let st := check co st "SBOM Creator identified" creatorIdentified "MISSING" false
      let st := check co st "SBOM Creation time defined" creationTime "MISSING" false
      (st, creatorIdentified, some creationTime, relationshipsValid)
    | none =>
      let st := check co st "SBOM Format" false "INVALID" false
      (st, false, none, false)
  match res with
  | (st, ci, ct, rv) =>
    let st := if !st.verbose && st.checkCount.fail == failCount
      then showText co st "Valid SBOM Format" false else st
    ({ st with auditMetadata := st.component, component := [] }, ci, ct, rv)

/-- Embeds `dep_check` after the inner `for r in relationships` loop: true iff the
subject's name appears as the source or the target of some relationship; a
subject with no name never enters the loop, so its flag stays false. -/
def depFound (name : Option String) (rels : List RelRec) : Bool :=
  match name with
  | none => false
  | some n => rels.any (fun r => r.source == some n || r.target == some n)

/-- Lines 538-546: the per-file dependency-relationship check.  The `_check`
call sits *outside* the `if name is not None` guard, so it runs for every
file; a nameless file keeps `dep_check = False`. -/
def relCheckFile (co : Bool) (rels : List RelRec) (st : St) (f : FileRec) : St :=
  let name := f.name
  let st := { st with nameVar := some name }
  check co st ("Dependency relationship found for " ++ pyOpt name)
    (depFound name rels) "MISSING" false

/-- Lines 548-556: the per-package dependency-relationship check. -/
def relCheckPkg (co : Bool) (rels : List RelRec) (st : St) (p : PackageRec) : St :=
  let name := p.name
  let st := { st with nameVar := some name }
  check co st ("Dependency relationship found for " ++ pyOpt name)
    (depFound name rels) "MISSING" false

/-- Embeds `for file in files` of the relationships section. -/
def relFilesLoop (co : Bool) (rels : List RelRec) (st : St) (files : List FileRec) : St :=
  files.foldl (relCheckFile co rels) st

/-- Embeds `for package in packages` of the relationships section. -/
def relPkgsLoop (co : Bool) (rels : List RelRec) (st : St) (pkgs : List PackageRec) : St :=
  pkgs.foldl (relCheckPkg co rels) st

/-- Lines 529-565: the relationships summary section. -/
def relationshipSection (co : Bool) (st : St) (rv : Bool) (files : List FileRec)
    (pkgs : List PackageRec) (rels : List RelRec) : St :=
  let st := heading co st "Relationships Summary"
  let failCount := st.checkCount.fail
  let st := check co st "Dependency relationships provided for NTIA compliance" rv
    "MISSING" false
  let st := if files.isEmpty then st else relFilesLoop co rels st files
  let st := if pkgs.isEmpty then st else relPkgsLoop co rels st pkgs
  let st := if !st.verbose && st.checkCount.fail == failCount
    then showText co st "Relationships Summary" false else st
  { st with auditRelationships := st.component, component := [] }

/-- Line 570-576: `valid_sbom = files_valid and packages_valid and
creator_identified and creation_time and relationships_valid`.  Python `and`
short-circuits left to right, so the unassigned `creation_time` of the
invalid-format branch is only read - raising `UnboundLocalError` - when the
three booleans before it are all true. -/
def finalVerdict (fv pv ci : Bool) (ct : Option Bool) (rv : Bool) : Except PyErr Bool :=
  if fv && pv && ci then
    match ct with
    | none => .error .creationTimeUnbound
    | some c => .ok (c && rv)
  else .ok false

/-- Lines 568-592: the `NTIA conformant` check and the final audit summary,
which permanently sets `self.verbose = True` before tallying. -/
def ntiaAndSummary (co : Bool) (st : St) (valid : Bool) : St :=
  let failCount := st.checkCount.fail
  let st := check co st "NTIA conformant" valid "FAILED" false
  let st := if !st.verbose && st.checkCount.fail == failCount
    then showText co st "NTIA Summary" false else st
  let st := heading co st "SBOM Audit Summary"
  let st := { st with verbose := true }
  let st := showText co st ("Checks passed " ++ toString st.checkCount.pass) false
  let st := showText co st ("Checks failed " ++ toString st.checkCount.fail) false
  let st := showText co st ("Policy checks passed " ++ toString st.policyCheckCount.pass) false
  let st := showText co st ("Policy checks failed " ++ toString st.policyCheckCount.fail) false
  { st with auditSummary := st.component }

/-- The whole of `audit_sbom`, with the option fields of `self` passed
explicitly. -/
def auditRun (co lc cc pc dbg offline : Bool) (minAge maxAge : Int)
    (allowList denyList : Dict) (env : Env) (sbom : SBOM) (st0 : St) :
    Except PyErr (St × Bool) :=
  let allowLic := allowList.lookup "license"
  let denyLic := denyList.lookup "license"
  let allowPkg := allowList.lookup "package"
  let denyPkg := denyList.lookup "package"
  match formatSection co sbom st0 with
  | (st, ci, ct, rv) =>
    match fileSection co lc allowLic denyLic env sbom.files st with
    | .error e => .error e
    | .ok (st, fv) =>
      match packageSection co lc cc pc dbg offline minAge maxAge
          allowLic denyLic allowPkg denyPkg env sbom.packages st with
      | .error e => .error e
      | .ok (st, pv) =>
        let st := { st with auditPolicy := st.policyComponent }
        let st := relationshipSection co st rv sbom.files sbom.packages sbom.relationships
        let st := heading co st "NTIA Summary"
        match finalVerdict fv pv ci ct rv with
        | .error e => .error e
        | .ok valid => .ok (ntiaAndSummary co st valid, valid)

/-- The option fields picked from the `options` dictionary by `__init__`. -/
structure Opts where
  verbose : Bool
  offline : Bool
  cpeCheck : Bool
  purlCheck : Bool
  licenseCheck : Bool
  debug : Bool
  age : Int
  maxage : Int
  allowList : Dict
  denyList : Dict
  consoleOut : Bool

/-- Embeds `DAYS_IN_YEAR = 365; self.maxage = int(options.get("maxage", "2")) * DAYS_IN_YEAR`. -/
def maxageOfYears (years : Int) : Int := years * 365

/-- Embeds `audit_sbom` on an auditor configured by `opts`, starting from recorder
state `st0`. -/
def auditSbom (opts : Opts) (env : Env) (sbom : SBOM) (st0 : St) : Except PyErr (St × Bool) :=
  auditRun opts.consoleOut opts.licenseCheck opts.cpeCheck opts.purlCheck opts.debug
    opts.offline opts.age opts.maxage opts.allowList opts.denyList env sbom st0

/-! ## Specification-level predicates (the five verdict booleans) -/

/-- Files NTIA-valid: every file record carries an id and a name. -/
def filesNTIA (sbom : SBOM) : Bool :=
  sbom.files.all (fun f => f.id.isSome && f.name.isSome)

/-- Packages NTIA-valid: id, name, version present and a supplier other than
`NOASSERTION`. -/
def packagesNTIA (sbom : SBOM) : Bool :=
  sbom.packages.all (fun p => p.id.isSome && p.name.isSome && p.version.isSome &&
    p.supplier.isSome && !(p.supplier == some "NOASSERTION"))

/-- Creator list non-empty. -/
def creatorIdentified (sbom : SBOM) : Bool := decide (sbom.creator.length > 0)

/-- Creation timestamp present. -/
def creationTimeValid (sbom : SBOM) : Bool := sbom.created.isSome

/-- At least one relationship present. -/
def relationshipsPresent (sbom : SBOM) : Bool := decide (sbom.relationships.length > 0)

/-! ## Normal forms of the recorder primitives -/

@[simp] lemma sendToConsole_eq (co : Bool) (st : St) (t : String) :
    sendToConsole co st t =
      { st with console := st.console ++ (if co then [t] else []) } := by
  unfold sendToConsole; split_ifs <;> simp

@[simp] lemma heading_eq (co : Bool) (st : St) (t : String) :
    heading co st t =
      { st with console := st.console ++ (if co then [t] else []) } := by
  unfold heading; split_ifs <;> simp

@[simp] lemma debugPrint_eq (st : St) (t : String) :
    debugPrint st t = { st with console := st.console ++ [t] } := rfl

@[simp] lemma componentMessage_eq (st : St) (m : String) (s : CState) (p : Bool) :
    componentMessage st m s p =
      { st with component := st.component ++ (if p then [] else [⟨m, s⟩]),
                policyComponent := st.policyComponent ++ (if p then [⟨m, s⟩] else []) } := by
  unfold componentMessage; cases p <;> simp

@[simp] lemma showText_eq (co : Bool) (st : St) (t : String) (p : Bool) :
    showText co st t p =
      { st with component := st.component ++ (if p then [] else [⟨t, .pass⟩]),
                policyComponent := st.policyComponent ++ (if p then [⟨t, .pass⟩] else []),
                console := st.console ++ (if co then ["[x] " ++ t] else []) } := by
  unfold showText; simp

/-- Full normal form of `_show_result`: each call bumps exactly one counter of
exactly one tier by exactly one, appends at most one component entry and at
most one console line, and changes nothing else. -/
lemma showResult_eq (co : Bool) (st : St) (t : String) (b : Bool) (v : Option String)
    (ft : String) (p : Bool) :
    showResult co st t b v ft p =
      { st with
        checkCount := if p then st.checkCount else
          if b then ⟨st.checkCount.pass + 1, st.checkCount.fail⟩
          else ⟨st.checkCount.pass, st.checkCount.fail + 1⟩,
        policyCheckCount := if p then
          (if b then ⟨st.policyCheckCount.pass + 1, st.policyCheckCount.fail⟩
           else ⟨st.policyCheckCount.pass, st.policyCheckCount.fail + 1⟩)
          else st.policyCheckCount,
        component := st.component ++ (if p then [] else
          if b then (if st.verbose then [⟨t, .pass⟩] else [])
          else [⟨failMsg t v ft, .fail⟩]),
        policyComponent := st.policyComponent ++ (if p then
          (if b then (if st.verbose then [⟨t, .pass⟩] else [])
           else [⟨failMsg t v ft, .fail⟩]) else []),
        console := st.console ++
          (if b then (if st.verbose then (if co then ["[x] " ++ t] else []) else [])
           else (if co then ["[ ] " ++ failMsg t v ft] else [])) } := by
  unfold showResult
  cases b <;> cases p <;> simp <;> split_ifs <;> simp

@[simp] lemma check_eq (co : Bool) (st : St) (t : String) (b : Bool) (ft : String) (p : Bool) :
    check co st t b ft p = showResult co st t b none ft p := rfl

lemma checkValue_eq (co : Bool) (st : St) (t : String) (vals : List String)
    (di : Option String) :
    checkValue co st t vals di =
      showResult co st t (match di with
        | none => false
        | some s => vals.contains s) di "MISSING" false := rfl

@[simp] lemma showResult_verbose (co : Bool) (st : St) (t : String) (b : Bool)
    (v : Option String) (ft : String) (p : Bool) :
    (showResult co st t b v ft p).verbose = st.verbose := by
  simp [showResult_eq]

@[simp] lemma showResult_auditMetadata (co : Bool) (st : St) (t : String) (b : Bool)
    (v : Option String) (ft : String) (p : Bool) :
    (showResult co st t b v ft p).auditMetadata = st.auditMetadata := by
  simp [showResult_eq]

@[simp] lemma showResult_auditFiles (co : Bool) (st : St) (t : String) (b : Bool)
    (v : Option String) (ft : String) (p : Bool) :
    (showResult co st t b v ft p).auditFiles = st.auditFiles := by
  simp [showResult_eq]

@[simp] lemma showResult_auditPackages (co : Bool) (st : St) (t : String) (b : Bool)
    (v : Option String) (ft : String) (p : Bool) :
    (showResult co st t b v ft p).auditPackages = st.auditPackages := by
  simp [showResult_eq]

@[simp] lemma showResult_auditPolicy (co : Bool) (st : St) (t : String) (b : Bool)
    (v : Option String) (ft : String) (p : Bool) :
    (showResult co st t b v ft p).auditPolicy = st.auditPolicy := by
  simp [showResult_eq]

@[simp] lemma showResult_auditRelationships (co : Bool) (st : St) (t : String) (b : Bool)
    (v : Option String) (ft : String) (p : Bool) :
    (showResult co st t b v ft p).auditRelationships = st.auditRelationships := by
  simp [showResult_eq]

@[simp] lemma showResult_auditSummary (co : Bool) (st : St) (t : String) (b : Bool)
    (v : Option String) (ft : String) (p : Bool) :
    (showResult co st t b v ft p).auditSummary = st.auditSummary := by
  simp [showResult_eq]

@[simp] lemma showResult_nameVar (co : Bool) (st : St) (t : String) (b : Bool)
    (v : Option String) (ft : String) (p : Bool) :
    (showResult co st t b v ft p).nameVar = st.nameVar := by
  simp [showResult_eq]

@[simp] lemma showResult_versionVar (co : Bool) (st : St) (t : String) (b : Bool)
    (v : Option String) (ft : String) (p : Bool) :
    (showResult co st t b v ft p).versionVar = st.versionVar := by
  simp [showResult_eq]

@[simp] lemma showResult_purlVar (co : Bool) (st : St) (t : String) (b : Bool)
    (v : Option String) (ft : String) (p : Bool) :
    (showResult co st t b v ft p).purlVar = st.purlVar := by
  simp [showResult_eq]

@[simp] lemma showResult_fileComponent (co : Bool) (st : St) (t : String) (b : Bool)
    (v : Option String) (ft : String) (p : Bool) :
    (showResult co st t b v ft p).fileComponent = st.fileComponent := by
  simp [showResult_eq]

@[simp] lemma showResult_packageComponent (co : Bool) (st : St) (t : String) (b : Bool)
    (v : Option String) (ft : String) (p : Bool) :
    (showResult co st t b v ft p).packageComponent = st.packageComponent := by
  simp [showResult_eq]

lemma showResult_checkCount (co : Bool) (st : St) (t : String) (b : Bool)
    (v : Option String) (ft : String) (p : Bool) :
    (showResult co st t b v ft p).checkCount = if p then st.checkCount else
      if b then ⟨st.checkCount.pass + 1, st.checkCount.fail⟩
      else ⟨st.checkCount.pass, st.checkCount.fail + 1⟩ := by
  simp [showResult_eq]

lemma showResult_policyCheckCount (co : Bool) (st : St) (t : String) (b : Bool)
    (v : Option String) (ft : String) (p : Bool) :
    (showResult co st t b v ft p).policyCheckCount = if p then
      (if b then ⟨st.policyCheckCount.pass + 1, st.policyCheckCount.fail⟩
       else ⟨st.policyCheckCount.pass, st.policyCheckCount.fail + 1⟩)
      else st.policyCheckCount := by
  simp [showResult_eq]

lemma showResult_component (co : Bool) (st : St) (t : String) (b : Bool)
    (v : Option String) (ft : String) (p : Bool) :
    (showResult co st t b v ft p).component = st.component ++ (if p then [] else
      if b then (if st.verbose then [⟨t, .pass⟩] else [])
      else [⟨failMsg t v ft, .fail⟩]) := by
  simp [showResult_eq]

lemma showResult_policyComponent (co : Bool) (st : St) (t : String) (b : Bool)
    (v : Option String) (ft : String) (p : Bool) :
    (showResult co st t b v ft p).policyComponent = st.policyComponent ++ (if p then
      (if b then (if st.verbose then [⟨t, .pass⟩] else [])
       else [⟨failMsg t v ft, .fail⟩]) else []) := by
  simp [showResult_eq]

@[simp] lemma showResult_policyCheckCount_ord (co : Bool) (st : St) (t : String) (b : Bool)
    (v : Option String) (ft : String) :
    (showResult co st t b v ft false).policyCheckCount = st.policyCheckCount := by
  simp [showResult_policyCheckCount]

@[simp] lemma showResult_policyComponent_ord (co : Bool) (st : St) (t : String) (b : Bool)
    (v : Option String) (ft : String) :
    (showResult co st t b v ft false).policyComponent = st.policyComponent := by
  simp [showResult_policyComponent]

/-! ## C9: the recorder counter invariant -/

/-- C9: every outcome recorded through `_show_result` increments exactly
one of the two counters (`Pass`/`Fail`) of exactly one tier (ordinary or
policy) by exactly one — the first conjunct pins both counter pairs exactly,
for every verbose flag (part of `st`) — and the counters are identical
whatever the console-output flag is, so suppressing console output never
changes any counter value. -/
theorem c9_recorder_counter_invariant (co co2 : Bool) (st : St) (text : String)
    (state : Bool) (value : Option String) (ft : String) (policy : Bool) :
    ((showResult co st text state value ft policy).checkCount =
        (if policy then st.checkCount
         else if state then ⟨st.checkCount.pass + 1, st.checkCount.fail⟩
         else ⟨st.checkCount.pass, st.checkCount.fail + 1⟩) ∧
      (showResult co st text state value ft policy).policyCheckCount =
        (if policy then
          (if state then ⟨st.policyCheckCount.pass + 1, st.policyCheckCount.fail⟩
           else ⟨st.policyCheckCount.pass, st.policyCheckCount.fail + 1⟩)
         else st.policyCheckCount)) ∧
    ((showResult co2 st text state value ft policy).checkCount =
        (showResult co st text state value ft policy).checkCount ∧
      (showResult co2 st text state value ft policy).policyCheckCount =
        (showResult co st text state value ft policy).policyCheckCount) := by
  refine ⟨⟨?_, ?_⟩, ?_, ?_⟩ <;>
    simp [showResult_checkCount, showResult_policyCheckCount]

/-! ## C5: allow/deny list loading -/

/-- C5 counterexample: a blank line is *not* ignored — it falls into the
`else` branch of `_setup` and is appended (stripped to the empty string) to
the open category, so loading `["[license]", ""]` yields the entry `""`
rather than an empty category. -/
theorem c5_blank_line_counterexample :
    processFile (some ["[license]", ""]) [] = .ok [("license", [""])] ∧
    processFile (some ["[license]", ""]) [] ≠ .ok [("license", ([] : List String))] := by
  constructor
  · decide
  · decide

/-- C5: (amended): loading is a no-op for a missing file; `#`-lines are
ignored; a `[`-line opens the category named between the brackets, replacing
its contents; and every other line — blank lines included — is appended,
trimmed of surrounding whitespace, to the most recently opened category (so a
blank line contributes an empty-string entry). -/
theorem c5_list_loading_amended :
    (∀ d : Dict, processFile none d = .ok d) ∧
    (∀ (cur : Option String) (d : Dict) (line : String) (rest : List String),
      pyStartsWith line "#" = true → setupGo cur d (line :: rest) = setupGo cur d rest) ∧
    (∀ (cur : Option String) (d : Dict) (line : String) (rest : List String),
      pyStartsWith line "#" = false → pyStartsWith line "[" = true →
      setupGo cur d (line :: rest) =
        setupGo (some (parseCategory line)) (dictSet d (parseCategory line)) rest) ∧
    (∀ (c : String) (d : Dict) (line : String) (rest : List String),
      pyStartsWith line "#" = false → pyStartsWith line "[" = false →
      setupGo (some c) d (line :: rest) =
        setupGo (some c) (dictAppend d c (pyStrip line)) rest) := by
  refine ⟨fun d => rfl, ?_, ?_, ?_⟩
  · intro cur d line rest h
    simp [setupGo, h]
  · intro cur d line rest h1 h2
    simp [setupGo, h1, h2]
  · intro c d line rest h1 h2
    simp [setupGo, h1, h2]

/-- Witness for `c5_list_loading_amended` at concrete inputs. -/
theorem c5_list_loading_amended_witness :
    processFile none [("license", ["MIT"])] = .ok [("license", ["MIT"])] ∧
    setupGo none [] ["# note", "[license]"] = setupGo none [] ["[license]"] ∧
    setupGo none [] ["[license]"] =
      setupGo (some (parseCategory "[license]")) (dictSet [] (parseCategory "[license]")) [] ∧
    setupGo (some "license") [("license", [])] [" MIT "] =
      setupGo (some "license") (dictAppend [("license", [])] "license" (pyStrip " MIT ")) [] :=
  ⟨c5_list_loading_amended.1 _,
   c5_list_loading_amended.2.1 none [] "# note" ["[license]"] (by decide),
   c5_list_loading_amended.2.2.1 none [] "[license]" [] (by decide) (by decide),
   c5_list_loading_amended.2.2.2 "license" [("license", [])] " MIT " [] (by decide) (by decide)⟩

/-! ## Concrete fixtures for counterexamples and witnesses -/

/-- A neutral oracle environment: unknown licenses, failing PURL parses, no
registry data. -/
def baseEnv : Env :=
  { findLicense := fun _ => "UNKNOWN"
    osiApproved := fun _ => false
    deprecated := fun _ => false
    parsePurl := fun _ => none
    findLatestVersion := fun _ _ => (none, none)
    packageInfo := fun _ _ => (none, none)
    ageDays := fun _ => 0 }

/-- Default-like options (license checking on, everything else off). -/
def baseOpts : Opts :=
  { verbose := false, offline := false, cpeCheck := false, purlCheck := false,
    licenseCheck := true, debug := false, age := 0, maxage := 730,
    allowList := [], denyList := [], consoleOut := false }

/-- The relationships-section report of a finished run. -/
def relReportsOf (r : Except PyErr (St × Bool)) : List Element :=
  match r with
  | .ok (st, _) => st.auditRelationships
  | .error _ => []

/-- All per-file report entries of a finished run. -/
def fileReportsOf (r : Except PyErr (St × Bool)) : List Element :=
  match r with
  | .ok (st, _) => (st.auditFiles.map FileElem.reports).flatten
  | .error _ => []

/-- All per-package report entries of a finished run. -/
def pkgReportsOf (r : Except PyErr (St × Bool)) : List Element :=
  match r with
  | .ok (st, _) => (st.auditPackages.map PkgElem.reports).flatten
  | .error _ => []

/-! ## C3: relationship checks for nameless subjects -/

/-- A valid SPDX document with one file that has an id but no name. -/
def c3sbom : SBOM :=
  ⟨some "spdx", some "SPDX-2.3", some "2023-01-01T00:00:00Z", ["tooling"],
    [⟨some "f1", none, none, none, none⟩], [], [⟨some "a", some "b"⟩]⟩

/-- C3 counterexample: a file whose name is absent is *not* skipped by the
relationship audit — the per-subject `_check` sits outside the
`if name is not None` guard, so a failing outcome
`"Dependency relationship found for None"` is recorded for it. -/
theorem c3_nameless_subject_counterexample :
    (⟨"Dependency relationship found for None: MISSING", .fail⟩ : Element) ∈
      relReportsOf (auditSbom baseOpts baseEnv c3sbom (initSt false)) ∧
    c3sbom.files.all (fun f => f.name == none) = true := by
  decide

/-! ## C4: file license-quality checks do not require a license value -/

/-- A valid SPDX document with one named file carrying no license. -/
def c4sbom : SBOM :=
  ⟨some "spdx", some "SPDX-2.3", some "2023-01-01T00:00:00Z", ["tooling"],
    [⟨some "f1", some "app", none, none, none⟩], [], [⟨some "app", some "x"⟩]⟩

/-- C4 counterexample: license checking enabled, file's concluded license
absent — yet SPDX-recognizability and OSI-approval outcomes *are* recorded for
the file (the files loop has no license-presence guard, unlike the packages
loop). -/
theorem c4_license_checks_counterexample :
    (⟨"SPDX Compatible License id included for app: None", .fail⟩ : Element) ∈
      fileReportsOf (auditSbom baseOpts baseEnv c4sbom (initSt false)) ∧
    (⟨"OSI Approved license for app: MISSING", .fail⟩ : Element) ∈
      fileReportsOf (auditSbom baseOpts baseEnv c4sbom (initSt false)) ∧
    c4sbom.files.all (fun f => f.licenseconcluded == none) = true ∧
    baseOpts.licenseCheck = true := by
  decide

/-! ## C8: unparsable package-manager locator -/

/-- A valid SPDX document with one package whose only package-manager locator
fails PURL parsing (under `baseEnv`, every parse fails). -/
def c8sbom : SBOM :=
  ⟨some "spdx", some "SPDX-2.3", some "2023-01-01T00:00:00Z", ["tooling"], [],
    [⟨some "p1", some "pkg", some "1.0", some "acme", some "MIT",
      some [⟨"PACKAGE-MANAGER", "purl", "not-a-purl"⟩]⟩],
    [⟨some "pkg", some "x"⟩]⟩

/-- Options with `purlcheck` and `debug` enabled. -/
def c8opts : Opts := { baseOpts with debug := true, purlCheck := true }

/-- C8:: with `debug` enabled the claimed silent demotion does *not* hold —
the debug trace reads the never-assigned `purl` variable and the audit aborts
with a `NameError` — while with `debug` disabled the code behaves exactly as
claimed: one failed "PURL included" outcome and no "PURL name compatible"
outcome of either state (the run records every outcome since verbose is on). -/
theorem c8_unparsable_purl :
    auditSbom c8opts baseEnv c8sbom (initSt true) = .error .purlUnbound ∧
    (⟨"PURL included for package pkg: MISSING or INVALID", .fail⟩ : Element) ∈
      pkgReportsOf (auditSbom { c8opts with debug := false } baseEnv c8sbom (initSt true)) ∧
    (pkgReportsOf (auditSbom { c8opts with debug := false } baseEnv c8sbom
        (initSt true))).countP (fun e => pyStartsWith e.text "PURL included") = 1 ∧
    (pkgReportsOf (auditSbom { c8opts with debug := false } baseEnv c8sbom
        (initSt true))).countP (fun e => pyStartsWith e.text "PURL name compatible") = 0 := by
  decide

/-! ## Counting lemmas for the relationship section (C3) -/

lemma relCheckFile_checkCount (co : Bool) (rels : List RelRec) (st : St) (f : FileRec) :
    (relCheckFile co rels st f).checkCount =
      if depFound f.name rels then ⟨st.checkCount.pass + 1, st.checkCount.fail⟩
      else ⟨st.checkCount.pass, st.checkCount.fail + 1⟩ := by
  simp [relCheckFile, showResult_checkCount]

lemma relCheckPkg_checkCount (co : Bool) (rels : List RelRec) (st : St) (p : PackageRec) :
    (relCheckPkg co rels st p).checkCount =
      if depFound p.name rels then ⟨st.checkCount.pass + 1, st.checkCount.fail⟩
      else ⟨st.checkCount.pass, st.checkCount.fail + 1⟩ := by
  simp [relCheckPkg, showResult_checkCount]

lemma relFilesLoop_counts (co : Bool) (rels : List RelRec) :
    ∀ (files : List FileRec) (st : St),
      (relFilesLoop co rels st files).checkCount.pass =
        st.checkCount.pass + files.countP (fun f => depFound f.name rels) ∧
      (relFilesLoop co rels st files).checkCount.fail =
        st.checkCount.fail + files.countP (fun f => !(depFound f.name rels))
  | [], st => by simp [relFilesLoop]
  | f :: fs, st => by
    have h1 : relFilesLoop co rels st (f :: fs) =
        relFilesLoop co rels (relCheckFile co rels st f) fs := rfl
    rcases relFilesLoop_counts co rels fs (relCheckFile co rels st f) with ⟨ih1, ih2⟩
    rw [h1, ih1, ih2, relCheckFile_checkCount]
    cases h : depFound f.name rels <;> simp [h, List.countP_cons] <;> omega

lemma relPkgsLoop_counts (co : Bool) (rels : List RelRec) :
    ∀ (pkgs : List PackageRec) (st : St),
      (relPkgsLoop co rels st pkgs).checkCount.pass =
        st.checkCount.pass + pkgs.countP (fun p => depFound p.name rels) ∧
      (relPkgsLoop co rels st pkgs).checkCount.fail =
        st.checkCount.fail + pkgs.countP (fun p => !(depFound p.name rels))
  | [], st => by simp [relPkgsLoop]
  | p :: ps, st => by
    have h1 : relPkgsLoop co rels st (p :: ps) =
        relPkgsLoop co rels (relCheckPkg co rels st p) ps := rfl
    rcases relPkgsLoop_counts co rels ps (relCheckPkg co rels st p) with ⟨ih1, ih2⟩
    rw [h1, ih1, ih2, relCheckPkg_checkCount]
    cases h : depFound p.name rels <;> simp [h, List.countP_cons] <;> omega

lemma relFilesLoop_if_collapse (co : Bool) (rels : List RelRec) (files : List FileRec)
    (st : St) :
    (if files.isEmpty then st else relFilesLoop co rels st files) =
      relFilesLoop co rels st files := by
  cases files <;> simp [relFilesLoop]

lemma relPkgsLoop_if_collapse (co : Bool) (rels : List RelRec) (pkgs : List PackageRec)
    (st : St) :
    (if pkgs.isEmpty then st else relPkgsLoop co rels st pkgs) =
      relPkgsLoop co rels st pkgs := by
  cases pkgs <;> simp [relPkgsLoop]

/-- C3: (amended): the relationship audit records one check for the NTIA
relationship requirement and then exactly one per-subject check for *every*
file and *every* package — subjects with a known name pass iff the name is an
endpoint of some relationship, while a subject with no name is *not* skipped:
it always receives a failing check (its `dep_check` flag can never be set). -/
theorem c3_relationship_checks_amended (co : Bool) (st : St) (rv : Bool)
    (files : List FileRec) (pkgs : List PackageRec) (rels : List RelRec) :
    (relationshipSection co st rv files pkgs rels).checkCount.pass =
      st.checkCount.pass + (if rv then 1 else 0)
        + files.countP (fun f => depFound f.name rels)
        + pkgs.countP (fun p => depFound p.name rels) ∧
    (relationshipSection co st rv files pkgs rels).checkCount.fail =
      st.checkCount.fail + (if rv then 0 else 1)
        + files.countP (fun f => !(depFound f.name rels))
        + pkgs.countP (fun p => !(depFound p.name rels)) := by
  unfold relationshipSection
  dsimp only
  rw [relFilesLoop_if_collapse, relPkgsLoop_if_collapse]
  have hshow : ∀ (c : Bool) (stA : St),
      ((if c then showText co stA "Relationships Summary" false else stA)).checkCount =
        stA.checkCount := by
    intro c stA; cases c <;> simp
  rw [hshow]
  rcases relPkgsLoop_counts co rels pkgs
      (relFilesLoop co rels (check co (heading co st "Relationships Summary")
        "Dependency relationships provided for NTIA compliance" rv "MISSING" false)
        files) with ⟨hp1, hp2⟩
  rw [hp1, hp2]
  rcases relFilesLoop_counts co rels files
      (check co (heading co st "Relationships Summary")
        "Dependency relationships provided for NTIA compliance" rv "MISSING" false)
      with ⟨hf1, hf2⟩
  rw [hf1, hf2]
  simp [showResult_checkCount]
  cases rv <;> simp

/-! ## Ordinary-tier counting lemmas for the file loop (C4) -/

/-- Total number of ordinary-tier outcomes recorded so far. -/
def ordinaryTotal (st : St) : Nat := st.checkCount.pass + st.checkCount.fail

lemma ordinaryTotal_showResult (co : Bool) (st : St) (t : String) (b : Bool)
    (v : Option String) (ft : String) (p : Bool) :
    ordinaryTotal (showResult co st t b v ft p) =
      ordinaryTotal st + (if p then 0 else 1) := by
  unfold ordinaryTotal
  rw [showResult_checkCount]
  cases p <;> cases b <;> simp <;> omega

lemma fileElementBlock_checkCount {st : St} {i : Option String} {st' : St}
    (h : fileElementBlock st i = .ok st') : st'.checkCount = st.checkCount := by
  unfold fileElementBlock at h
  split at h
  · simp only [Except.ok.injEq] at h
    subst h; rfl
  · split at h
    · exact Except.noConfusion h
    · simp only [Except.ok.injEq] at h
      subst h; rfl

/-- C4: (amended): for every file record that carries an id, the per-file
audit records `4 + 3` ordinary-tier outcomes when license checking is enabled
and `4` when it is disabled — i.e. the three license-quality checks
(SPDX-recognizability, OSI approval, non-deprecation) are recorded exactly
when license checking is enabled, *regardless of whether the file has a
license value* (the files loop has no license-presence guard). -/
@[simp] lemma ordinaryTotal_withNameVar (st : St) (x : Option (Option String)) :
    ordinaryTotal { st with nameVar := x } = ordinaryTotal st := rfl

lemma ordinaryTotal_auditOneFileChecks (co lc : Bool) (aL dL : Option (List String))
    (env : Env) (st : St) (f : FileRec) (i : String) :
    ordinaryTotal (auditOneFileChecks co lc aL dL env st f i) =
      ordinaryTotal st + 4 + (if lc then 3 else 0) := by
  unfold auditOneFileChecks
  cases f.name <;> cases aL <;> cases dL <;> cases lc <;>
    simp [ordinaryTotal_showResult]

theorem c4_license_checks_amended (co lc : Bool) (allowLic denyLic : Option (List String))
    (env : Env) (st : St) (fv : Bool) (f : FileRec) (i : String) (st2 : St) (fv2 : Bool)
    (hid : f.id = some i)
    (hok : auditOneFile co lc allowLic denyLic env st fv f = .ok (st2, fv2)) :
    ordinaryTotal st2 = ordinaryTotal st + 4 + (if lc then 3 else 0) := by
  unfold auditOneFile at hok
  rw [hid] at hok
  simp only at hok
  cases hfe : fileElementBlock (auditOneFileChecks co lc allowLic denyLic env st f i)
      (some i) with
  | error e => rw [hfe] at hok; exact Except.noConfusion hok
  | ok stF =>
    rw [hfe] at hok
    simp only [Except.ok.injEq, Prod.mk.injEq] at hok
    obtain ⟨h2, -⟩ := hok
    subst h2
    have hc := fileElementBlock_checkCount hfe
    calc ordinaryTotal stF
        = ordinaryTotal (auditOneFileChecks co lc allowLic denyLic env st f i) := by
          unfold ordinaryTotal; rw [hc]
      _ = ordinaryTotal st + 4 + (if lc then 3 else 0) :=
          ordinaryTotal_auditOneFileChecks co lc allowLic denyLic env st f i

/-- The C4 fixture file: id and name present, license absent. -/
def c4file : FileRec := ⟨some "f1", some "app", none, none, none⟩

/-- The result pair of the per-file audit of `c4file`. -/
def c4wpair : St × Bool :=
  (auditOneFile false true none none baseEnv (initSt false) true c4file).toOption.getD
    (initSt false, false)

/-- Witness for `c4_license_checks_amended` at a concrete file with no
license. -/
theorem c4_license_checks_amended_witness :
    c4file.id = some "f1" ∧
    ordinaryTotal c4wpair.1 = ordinaryTotal (initSt false) + 4 + (if true then 3 else 0) :=
  ⟨rfl, c4_license_checks_amended false true none none baseEnv (initSt false) true c4file
      "f1" c4wpair.1 c4wpair.2 rfl (by decide)⟩

/-! ## C7: freshness policy checks -/

/-- C7:: whenever the declared version's release timestamp was resolved
(`ld = some d`), a policy-tier mature-version outcome is recorded
unconditionally, passing iff the release age strictly exceeds the minimum-age
threshold; a policy-tier staleness outcome is recorded exactly when a latest
version was resolved and differs from the declared version, passing iff the
age is strictly under `maxage` years times 365 days; and when no timestamp
was resolved no policy-tier outcome is recorded at all. -/
theorem c7_freshness_policy_checks (co : Bool) (minAge y : Int)
    (ageDays : String → Int) (st : St) (name version lv : Option String) (d : String) :
    (versionAndAgeChecks co minAge (maxageOfYears y) ageDays st name version lv
        (some d)).policyCheckCount.pass =
      st.policyCheckCount.pass + (if ageDays d > minAge then 1 else 0) +
        (if (match lv with | some l => !(version == some l) | none => false) then
          (if ageDays d < y * 365 then 1 else 0) else 0) ∧
    (versionAndAgeChecks co minAge (maxageOfYears y) ageDays st name version lv
        (some d)).policyCheckCount.fail =
      st.policyCheckCount.fail + (if ageDays d > minAge then 0 else 1) +
        (if (match lv with | some l => !(version == some l) | none => false) then
          (if ageDays d < y * 365 then 0 else 1) else 0) ∧
    (versionAndAgeChecks co minAge (maxageOfYears y) ageDays st name version
        lv none).policyCheckCount = st.policyCheckCount := by
  unfold versionAndAgeChecks maxageOfYears
  cases lv with
  | none =>
    refine ⟨?_, ?_, ?_⟩ <;> simp [showResult_policyCheckCount] <;> split_ifs <;> simp
  | some l =>
    cases hv : version == some l <;>
      refine ⟨?_, ?_, ?_⟩ <;> simp [hv, showResult_policyCheckCount] <;> split_ifs <;> simp

/-! ## Shape and frame lemmas for the loop bodies -/

lemma fileElementBlock_shape {st : St} {i : Option String} {st' : St}
    (h : fileElementBlock st i = .ok st') :
    st'.component = [] ∧ st'.auditMetadata = st.auditMetadata ∧
    st'.checkCount = st.checkCount ∧ st'.policyCheckCount = st.policyCheckCount ∧
    st'.policyComponent = st.policyComponent ∧ st'.verbose = st.verbose ∧
    st'.nameVar = st.nameVar ∧ st'.versionVar = st.versionVar := by
  unfold fileElementBlock at h
  split at h
  next hc =>
    simp only [Except.ok.injEq] at h
    subst h
    refine ⟨?_, rfl, rfl, rfl, rfl, rfl, rfl, rfl⟩
    simpa using hc
  next hc =>
    split at h
    next => exact Except.noConfusion h
    next nm hn =>
      simp only [Except.ok.injEq] at h
      subst h
      exact ⟨rfl, rfl, rfl, rfl, rfl, rfl, rfl, rfl⟩

lemma pkgElementBlock_shape {st : St} {st' : St}
    (h : pkgElementBlock st = .ok st') :
    st'.component = [] ∧ st'.auditMetadata = st.auditMetadata ∧
    st'.checkCount = st.checkCount ∧ st'.policyCheckCount = st.policyCheckCount ∧
    st'.policyComponent = st.policyComponent ∧ st'.verbose = st.verbose ∧
    st'.nameVar = st.nameVar ∧ st'.versionVar = st.versionVar := by
  unfold pkgElementBlock at h
  split at h
  next hc =>
    simp only [Except.ok.injEq] at h
    subst h
    refine ⟨?_, rfl, rfl, rfl, rfl, rfl, rfl, rfl⟩
    simpa using hc
  next hc =>
    split at h
    next => exact Except.noConfusion h
    next nm hn =>
      split at h
      next => exact Except.noConfusion h
      next ver hv =>
        simp only [Except.ok.injEq] at h
        subst h
        exact ⟨rfl, rfl, rfl, rfl, rfl, rfl, rfl, rfl⟩

lemma fileElementBlock_ok {st : St} {i : Option String} {nm : Option String}
    (h : st.nameVar = some nm) : ∃ st', fileElementBlock st i = .ok st' := by
  unfold fileElementBlock
  split
  · exact ⟨st, rfl⟩
  · rw [h]
    exact ⟨_, rfl⟩

lemma pkgElementBlock_ok {st : St} {nm ver : Option String}
    (h1 : st.nameVar = some nm) (h2 : st.versionVar = some ver) :
    ∃ st', pkgElementBlock st = .ok st' := by
  unfold pkgElementBlock
  split
  · exact ⟨st, rfl⟩
  · rw [h1, h2]
    exact ⟨_, rfl⟩

lemma processRef_shape {dbg off : Bool} {env : Env} {n v : Option String}
    {st : St} {lv ld : Option String} {pu cu : Bool} {r : ExtRef}
    {out : St × Option String × Option String × Bool × Bool}
    (h : processRef dbg off env n v (st, lv, ld, pu, cu) r = .ok out) :
    out.1 = { st with purlVar := out.1.purlVar, console := out.1.console } := by
  rcases hp : env.parsePurl r.locator with _ | p <;>
    cases dbg <;>
    rcases hpv : st.purlVar with _ | p0 <;>
    cases hcat : (r.cat == "PACKAGE-MANAGER" || r.cat == "PACKAGE_MANAGER") <;>
    cases hcpe : (r.rtype == "cpe22Type" || r.rtype == "cpe23Type") <;>
    simp [processRef, hp, hpv, hcat, hcpe] at h <;>
    (try subst h) <;>
    (try simp)

lemma refsLoop_shape {dbg off : Bool} {env : Env} {n v : Option String} :
    ∀ {refs : List ExtRef} {st : St} {lv ld : Option String} {pu cu : Bool}
      {out : St × Option String × Option String × Bool × Bool},
      refsLoop dbg off env n v refs (st, lv, ld, pu, cu) = .ok out →
      out.1 = { st with purlVar := out.1.purlVar, console := out.1.console }
  | [], st, lv, ld, pu, cu, out, h => by
    simp only [refsLoop, Except.ok.injEq] at h
    subst h
    simp
  | r :: rs, st, lv, ld, pu, cu, out, h => by
    unfold refsLoop at h
    split at h
    next => exact Except.noConfusion h
    next acc1 hp =>
      obtain ⟨st1, lv1, ld1, pu1, cu1⟩ := acc1
      have hs := processRef_shape hp
      have ih := refsLoop_shape h
      dsimp only at hs
      rw [ih, hs]

@[simp] lemma versionAndAgeChecks_auditMetadata (co : Bool) (mi ma : Int)
    (ad : String → Int) (st : St) (name version lv ld : Option String) :
    (versionAndAgeChecks co mi ma ad st name version lv ld).auditMetadata =
      st.auditMetadata := by
  unfold versionAndAgeChecks
  cases lv <;> cases ld <;> (try simp) <;> (try split_ifs) <;> (try simp)

@[simp] lemma versionAndAgeChecks_nameVar (co : Bool) (mi ma : Int)
    (ad : String → Int) (st : St) (name version lv ld : Option String) :
    (versionAndAgeChecks co mi ma ad st name version lv ld).nameVar = st.nameVar := by
  unfold versionAndAgeChecks
  cases lv <;> cases ld <;> (try simp) <;> (try split_ifs) <;> (try simp)

@[simp] lemma versionAndAgeChecks_versionVar (co : Bool) (mi ma : Int)
    (ad : String → Int) (st : St) (name version lv ld : Option String) :
    (versionAndAgeChecks co mi ma ad st name version lv ld).versionVar = st.versionVar := by
  unfold versionAndAgeChecks
  cases lv <;> cases ld <;> (try simp) <;> (try split_ifs) <;> (try simp)

@[simp] lemma versionAndAgeChecks_verbose (co : Bool) (mi ma : Int)
    (ad : String → Int) (st : St) (name version lv ld : Option String) :
    (versionAndAgeChecks co mi ma ad st name version lv ld).verbose = st.verbose := by
  unfold versionAndAgeChecks
  cases lv <;> cases ld <;> (try simp) <;> (try split_ifs) <;> (try simp)

@[simp] lemma versionAndAgeChecks_purlVar (co : Bool) (mi ma : Int)
    (ad : String → Int) (st : St) (name version lv ld : Option String) :
    (versionAndAgeChecks co mi ma ad st name version lv ld).purlVar = st.purlVar := by
  unfold versionAndAgeChecks
  cases lv <;> cases ld <;> (try simp) <;> (try split_ifs) <;> (try simp)

lemma auditOneFileChecks_frame (co lc : Bool) (aL dL : Option (List String)) (env : Env)
    (st : St) (f : FileRec) (i : String) :
    (auditOneFileChecks co lc aL dL env st f i).auditMetadata = st.auditMetadata ∧
    (auditOneFileChecks co lc aL dL env st f i).nameVar = some f.name ∧
    (auditOneFileChecks co lc aL dL env st f i).versionVar = st.versionVar ∧
    (auditOneFileChecks co lc aL dL env st f i).verbose = st.verbose := by
  unfold auditOneFileChecks
  cases f.name <;> cases aL <;> cases dL <;> cases lc <;> simp

set_option maxHeartbeats 2000000 in
lemma auditOnePackageChecks_frame (co lc cc pc : Bool) (mi ma : Int)
    (aL dL aP dP : Option (List String)) (env : Env) (st : St) (pkg : PackageRec)
    (i : String) (lv ld : Option String) (pu cu : Bool) :
    (auditOnePackageChecks co lc cc pc mi ma aL dL aP dP env st pkg i lv ld pu cu).auditMetadata
      = st.auditMetadata ∧
    (auditOnePackageChecks co lc cc pc mi ma aL dL aP dP env st pkg i lv ld pu cu).nameVar
      = st.nameVar ∧
    (auditOnePackageChecks co lc cc pc mi ma aL dL aP dP env st pkg i lv ld pu cu).versionVar
      = st.versionVar ∧
    (auditOnePackageChecks co lc cc pc mi ma aL dL aP dP env st pkg i lv ld pu cu).verbose
      = st.verbose := by
  unfold auditOnePackageChecks
  refine ⟨?_, ?_, ?_, ?_⟩ <;>
    cases pkg.name <;> cases aP <;> cases dP <;> cases aL <;> cases dL <;>
    rcases hpv : st.purlVar with _ | p0 <;>
    simp [hpv, apply_ite St.auditMetadata, apply_ite St.nameVar,
      apply_ite St.versionVar, apply_ite St.verbose, apply_ite St.purlVar]

/-! ## The files/packages validity flags -/

lemma auditOneFile_flag {co lc : Bool} {aL dL : Option (List String)} {env : Env}
    {st : St} {fv : Bool} {f : FileRec} {st2 : St} {fv2 : Bool}
    (h : auditOneFile co lc aL dL env st fv f = .ok (st2, fv2)) :
    fv2 = (fv && (f.id.isSome && f.name.isSome)) := by
  unfold auditOneFile at h
  cases hid : f.id with
  | none =>
    rw [hid] at h
    dsimp only at h
    cases hfe : fileElementBlock (check co st "File id missing" false "MISSING" false)
        none with
    | error e => rw [hfe] at h; exact Except.noConfusion h
    | ok stO =>
      rw [hfe] at h
      simp only [Except.ok.injEq, Prod.mk.injEq] at h
      obtain ⟨-, h2⟩ := h
      simp [hid, ← h2]
  | some i =>
    rw [hid] at h
    dsimp only at h
    cases hfe : fileElementBlock (auditOneFileChecks co lc aL dL env st f i) (some i) with
    | error e => rw [hfe] at h; exact Except.noConfusion h
    | ok stO =>
      rw [hfe] at h
      simp only [Except.ok.injEq, Prod.mk.injEq] at h
      obtain ⟨-, h2⟩ := h
      cases hn : f.name <;> simp [hid, hn, ← h2]

lemma auditFilesLoop_flag {co lc : Bool} {aL dL : Option (List String)} {env : Env} :
    ∀ {files : List FileRec} {st : St} {fv : Bool} {st2 : St} {fv2 : Bool},
      auditFilesLoop co lc aL dL env files st fv = .ok (st2, fv2) →
      fv2 = (fv && files.all (fun f => f.id.isSome && f.name.isSome))
  | [], st, fv, st2, fv2, h => by
    simp only [auditFilesLoop, Except.ok.injEq, Prod.mk.injEq] at h
    obtain ⟨-, h2⟩ := h
    simp [← h2]
  | f :: fs, st, fv, st2, fv2, h => by
    unfold auditFilesLoop at h
    cases hone : auditOneFile co lc aL dL env st fv f with
    | error e => rw [hone] at h; exact Except.noConfusion h
    | ok q =>
      obtain ⟨st1, fv1⟩ := q
      rw [hone] at h
      dsimp only at h
      have h1 := auditOneFile_flag hone
      have h2 := auditFilesLoop_flag h
      rw [h2, List.all_cons, ← Bool.and_assoc, ← h1]

lemma fileSection_flag {co lc : Bool} {aL dL : Option (List String)} {env : Env}
    {files : List FileRec} {st : St} {st2 : St} {fv : Bool}
    (h : fileSection co lc aL dL env files st = .ok (st2, fv)) :
    fv = files.all (fun f => f.id.isSome && f.name.isSome) := by
  unfold fileSection at h
  split at h
  next he =>
    simp only [Except.ok.injEq, Prod.mk.injEq] at h
    obtain ⟨-, h2⟩ := h
    have : files = [] := by simpa using he
    subst this
    simp [← h2]
  next he =>
    dsimp only at h
    cases hl : auditFilesLoop co lc aL dL env files (heading co st "File Summary") true with
    | error e => rw [hl] at h; exact Except.noConfusion h
    | ok q =>
      obtain ⟨stL, fvL⟩ := q
      rw [hl] at h
      dsimp only at h
      simp only [Except.ok.injEq, Prod.mk.injEq] at h
      obtain ⟨-, h2⟩ := h
      have := auditFilesLoop_flag hl
      simp only [Bool.true_and] at this
      rw [← h2, this]

lemma auditOnePackage_flag {co lc cc pc dbg off : Bool} {mi ma : Int}
    {aL dL aP dP : Option (List String)} {env : Env}
    {st : St} {pv : Bool} {pkg : PackageRec} {st2 : St} {pv2 : Bool}
    (h : auditOnePackage co lc cc pc dbg off mi ma aL dL aP dP env st pv pkg
      = .ok (st2, pv2)) :
    pv2 = (pv && (pkg.id.isSome && pkg.name.isSome && pkg.version.isSome &&
      pkg.supplier.isSome && !(pkg.supplier == some "NOASSERTION"))) := by
  unfold auditOnePackage at h
  cases hid : pkg.id with
  | none =>
    rw [hid] at h
    dsimp only at h
    cases hpe : pkgElementBlock (check co st "Package id missing" false "MISSING" false) with
    | error e => rw [hpe] at h; exact Except.noConfusion h
    | ok stO =>
      rw [hpe] at h
      simp only [Except.ok.injEq, Prod.mk.injEq] at h
      obtain ⟨-, h2⟩ := h
      simp [hid, ← h2]
  | some i =>
    rw [hid] at h
    dsimp only at h
    cases hrl : refsLoop dbg off env pkg.name pkg.version (pkg.externalreference.getD [])
        ({ st with nameVar := some pkg.name, versionVar := some pkg.version },
          none, none, false, false) with
    | error e => rw [hrl] at h; exact Except.noConfusion h
    | ok acc =>
      obtain ⟨stR, lv, ld, pu, cu⟩ := acc
      rw [hrl] at h
      dsimp only at h
      cases hpe : pkgElementBlock (auditOnePackageChecks co lc cc pc mi ma aL dL aP dP env
          stR pkg i lv ld pu cu) with
      | error e => rw [hpe] at h; exact Except.noConfusion h
      | ok stO =>
        rw [hpe] at h
        simp only [Except.ok.injEq, Prod.mk.injEq] at h
        obtain ⟨-, h2⟩ := h
        cases hn : pkg.name <;> cases hvv : pkg.version <;> cases hsup : pkg.supplier <;>
          rw [← h2] <;> simp [hid, hn, hvv, hsup] <;>
          (try (rename_i sup; by_cases hbe : sup = "NOASSERTION" <;> simp [hbe]))

lemma auditPkgsLoop_flag {co lc cc pc dbg off : Bool} {mi ma : Int}
    {aL dL aP dP : Option (List String)} {env : Env} :
    ∀ {pkgs : List PackageRec} {st : St} {pv : Bool} {st2 : St} {pv2 : Bool},
      auditPkgsLoop co lc cc pc dbg off mi ma aL dL aP dP env pkgs st pv = .ok (st2, pv2) →
      pv2 = (pv && pkgs.all (fun p => p.id.isSome && p.name.isSome && p.version.isSome &&
        p.supplier.isSome && !(p.supplier == some "NOASSERTION")))
  | [], st, pv, st2, pv2, h => by
    simp only [auditPkgsLoop, Except.ok.injEq, Prod.mk.injEq] at h
    obtain ⟨-, h2⟩ := h
    simp [← h2]
  | p :: ps, st, pv, st2, pv2, h => by
    unfold auditPkgsLoop at h
    cases hone : auditOnePackage co lc cc pc dbg off mi ma aL dL aP dP env st pv p with
    | error e => rw [hone] at h; exact Except.noConfusion h
    | ok q =>
      obtain ⟨st1, pv1⟩ := q
      rw [hone] at h
      dsimp only at h
      have h1 := auditOnePackage_flag hone
      have h2 := auditPkgsLoop_flag h
      rw [h2, List.all_cons, ← Bool.and_assoc, ← h1]

lemma packageSection_flag {co lc cc pc dbg off : Bool} {mi ma : Int}
    {aL dL aP dP : Option (List String)} {env : Env}
    {pkgs : List PackageRec} {st : St} {st2 : St} {pv : Bool}
    (h : packageSection co lc cc pc dbg off mi ma aL dL aP dP env pkgs st = .ok (st2, pv)) :
    pv = pkgs.all (fun p => p.id.isSome && p.name.isSome && p.version.isSome &&
      p.supplier.isSome && !(p.supplier == some "NOASSERTION")) := by
  unfold packageSection at h
  split at h
  next he =>
    simp only [Except.ok.injEq, Prod.mk.injEq] at h
    obtain ⟨-, h2⟩ := h
    have : pkgs = [] := by simpa using he
    subst this
    simp [← h2]
  next he =>
    dsimp only at h
    cases hl : auditPkgsLoop co lc cc pc dbg off mi ma aL dL aP dP env pkgs
        (heading co st "Package Summary") true with
    | error e => rw [hl] at h; exact Except.noConfusion h
    | ok q =>
      obtain ⟨stL, pvL⟩ := q
      rw [hl] at h
      dsimp only at h
      simp only [Except.ok.injEq, Prod.mk.injEq] at h
      obtain ⟨-, h2⟩ := h
      have := auditPkgsLoop_flag hl
      simp only [Bool.true_and] at this
      rw [← h2, this]

/-! ## Format section and final verdict -/

lemma formatSection_snd_some (co : Bool) (sbom : SBOM) (st : St) (t : String)
    (h : sbom.doctype = some t) :
    (formatSection co sbom st).2 =
      (creatorIdentified sbom, some (creationTimeValid sbom), relationshipsPresent sbom) := by
  unfold formatSection creatorIdentified creationTimeValid relationshipsPresent
  rw [h]

lemma nat_succ_beq_self (n : Nat) : (n + 1 == n) = false := by
  rw [beq_eq_false_iff_ne]
  exact Nat.succ_ne_self n

lemma formatSection_none_props (co : Bool) (sbom : SBOM) (st : St)
    (h : sbom.doctype = none) :
    (formatSection co sbom st).2 = (false, none, false) ∧
    (formatSection co sbom st).1.auditMetadata =
      [⟨"SBOM Format: INVALID", CState.fail⟩] ∧
    (formatSection co sbom st).1.component = [] := by
  unfold formatSection
  rw [h]
  refine ⟨rfl, ?_, rfl⟩
  simp [showResult_eq, nat_succ_beq_self,
    show failMsg "SBOM Format" none "INVALID" = "SBOM Format: INVALID" by decide]

lemma finalVerdict_some (fv pv ci c rv : Bool) :
    finalVerdict fv pv ci (some c) rv = .ok (fv && pv && ci && c && rv) := by
  unfold finalVerdict
  cases fv <;> cases pv <;> cases ci <;> simp

lemma finalVerdict_ci_false (fv pv rv : Bool) (ct : Option Bool) :
    finalVerdict fv pv false ct rv = .ok false := by
  unfold finalVerdict
  simp

/-! ## C2: the compliance verdict is the conjunction of the five booleans -/

/-- C2:: for every SBOM whose document kind is determined, whenever
`audit_sbom` returns, the returned boolean equals the conjunction of the five
booleans: files NTIA-valid, packages NTIA-valid, creator list non-empty,
creation timestamp present, and at least one relationship — with the two
NTIA-validity booleans defaulting to true when there are zero files or zero
packages. -/
theorem c2_verdict_conjunction (opts : Opts) (env : Env) (sbom : SBOM) (st0 : St)
    (t : String) (st : St) (v : Bool)
    (hdoc : sbom.doctype = some t)
    (h : auditSbom opts env sbom st0 = .ok (st, v)) :
    v = (filesNTIA sbom && packagesNTIA sbom && creatorIdentified sbom &&
      creationTimeValid sbom && relationshipsPresent sbom) := by
  unfold auditSbom auditRun at h
  rcases hfmt : formatSection opts.consoleOut sbom st0 with ⟨st1, ci, ct, rv⟩
  have hsnd := formatSection_snd_some opts.consoleOut sbom st0 t hdoc
  rw [hfmt] at hsnd
  simp only [Prod.mk.injEq] at hsnd
  obtain ⟨hci, hct, hrv⟩ := hsnd
  subst hci hct hrv
  rw [hfmt] at h
  dsimp only at h
  cases hfs : fileSection opts.consoleOut opts.licenseCheck
      (opts.allowList.lookup "license") (opts.denyList.lookup "license") env
      sbom.files st1 with
  | error e => rw [hfs] at h; exact Except.noConfusion h
  | ok q =>
    obtain ⟨st2, fv⟩ := q
    rw [hfs] at h
    dsimp only at h
    cases hps : packageSection opts.consoleOut opts.licenseCheck opts.cpeCheck
        opts.purlCheck opts.debug opts.offline opts.age opts.maxage
        (opts.allowList.lookup "license") (opts.denyList.lookup "license")
        (opts.allowList.lookup "package") (opts.denyList.lookup "package") env
        sbom.packages st2 with
    | error e => rw [hps] at h; exact Except.noConfusion h
    | ok q2 =>
      obtain ⟨st3, pv⟩ := q2
      rw [hps] at h
      dsimp only at h
      rw [finalVerdict_some] at h
      dsimp only at h
      simp only [Except.ok.injEq, Prod.mk.injEq] at h
      obtain ⟨-, h2⟩ := h
      have hfv := fileSection_flag hfs
      have hpv := packageSection_flag hps
      rw [← h2, hfv, hpv]
      rfl

/-- The result pair of a concrete successful run (used by witnesses). -/
def okpair : St × Bool :=
  (auditSbom baseOpts baseEnv c4sbom (initSt false)).toOption.getD (initSt false, false)

/-- Witness for `c2_verdict_conjunction` at a concrete valid SPDX SBOM. -/
theorem c2_verdict_conjunction_witness :
    c4sbom.doctype = some "spdx" ∧
    okpair.2 = (filesNTIA c4sbom && packagesNTIA c4sbom && creatorIdentified c4sbom &&
      creationTimeValid c4sbom && relationshipsPresent c4sbom) :=
  ⟨rfl, c2_verdict_conjunction baseOpts baseEnv c4sbom (initSt false) "spdx"
    okpair.1 okpair.2 rfl (by decide)⟩

/-! ## C10: audit_sbom permanently raises the verbose flag -/

lemma ntiaAndSummary_verbose (co : Bool) (st : St) (b : Bool) :
    (ntiaAndSummary co st b).verbose = true := by
  unfold ntiaAndSummary
  dsimp only
  split_ifs <;> simp

/-- C10:: whenever `audit_sbom` returns, the auditor's `verbose` flag is
true regardless of the constructed value — the final summary tally overwrites
it — so later recording on the same instance behaves as if verbose reporting
had been requested. -/
theorem c10_verbose_overwritten (opts : Opts) (env : Env) (sbom : SBOM) (st0 : St)
    (st : St) (v : Bool) (h : auditSbom opts env sbom st0 = .ok (st, v)) :
    st.verbose = true := by
  unfold auditSbom auditRun at h
  rcases hfmt : formatSection opts.consoleOut sbom st0 with ⟨st1, ci, ct, rv⟩
  rw [hfmt] at h
  dsimp only at h
  cases hfs : fileSection opts.consoleOut opts.licenseCheck
      (opts.allowList.lookup "license") (opts.denyList.lookup "license") env
      sbom.files st1 with
  | error e => rw [hfs] at h; exact Except.noConfusion h
  | ok q =>
    obtain ⟨st2, fv⟩ := q
    rw [hfs] at h
    dsimp only at h
    cases hps : packageSection opts.consoleOut opts.licenseCheck opts.cpeCheck
        opts.purlCheck opts.debug opts.offline opts.age opts.maxage
        (opts.allowList.lookup "license") (opts.denyList.lookup "license")
        (opts.allowList.lookup "package") (opts.denyList.lookup "package") env
        sbom.packages st2 with
    | error e => rw [hps] at h; exact Except.noConfusion h
    | ok q2 =>
      obtain ⟨st3, pv⟩ := q2
      rw [hps] at h
      dsimp only at h
      cases hfv : finalVerdict fv pv ci ct rv with
      | error e => rw [hfv] at h; exact Except.noConfusion h
      | ok valid =>
        rw [hfv] at h
        dsimp only at h
        simp only [Except.ok.injEq, Prod.mk.injEq] at h
        obtain ⟨h1, -⟩ := h
        rw [← h1]
        exact ntiaAndSummary_verbose _ _ _

/-- Witness for `c10_verbose_overwritten` at a concrete run started with
verbose off. -/
theorem c10_verbose_overwritten_witness : okpair.1.verbose = true :=
  c10_verbose_overwritten baseOpts baseEnv c4sbom (initSt false)
    okpair.1 okpair.2 (by decide)

/-! ## C1: undetermined document kind -/

/-- A SBOM with undetermined kind and a file record with no id. -/
def c1sbom : SBOM := ⟨none, none, none, [], [⟨none, none, none, none, none⟩], [], []⟩

/-- C1 counterexample: the audit of an undetermined-kind SBOM does *not*
always complete — a first file record lacking an id makes the
element-formatting block read the never-assigned `name` variable and the run
aborts with a `NameError` instead of returning a verdict. -/
theorem c1_invalid_sbom_counterexample :
    auditSbom baseOpts baseEnv c1sbom (initSt false) = .error .nameUnbound ∧
    c1sbom.doctype = none := by
  decide

lemma auditOneFile_ok_frame {co lc : Bool} {aL dL : Option (List String)} {env : Env}
    {st : St} {fv : Bool} {f : FileRec} {i : String} (hid : f.id = some i) :
    ∃ st2 fv2, auditOneFile co lc aL dL env st fv f = .ok (st2, fv2) ∧
      st2.component = [] ∧ st2.auditMetadata = st.auditMetadata := by
  unfold auditOneFile
  rw [hid]
  dsimp only
  obtain ⟨hmeta, hname, hver, hverb⟩ := auditOneFileChecks_frame co lc aL dL env st f i
  obtain ⟨stE, hE⟩ := fileElementBlock_ok hname
  rw [hE]
  refine ⟨stE, _, rfl, (fileElementBlock_shape hE).1, ?_⟩
  rw [(fileElementBlock_shape hE).2.1, hmeta]

lemma auditFilesLoop_ok_frame {co lc : Bool} {aL dL : Option (List String)} {env : Env} :
    ∀ {files : List FileRec} {st : St} {fv : Bool},
      (∀ f ∈ files, f.id.isSome) →
      ∃ st2 fv2, auditFilesLoop co lc aL dL env files st fv = .ok (st2, fv2) ∧
        st2.auditMetadata = st.auditMetadata
  | [], st, fv, _ => ⟨st, fv, rfl, rfl⟩
  | f :: fs, st, fv, hids => by
    obtain ⟨i, hi⟩ := Option.isSome_iff_exists.mp (hids f (List.mem_cons_self f fs))
    obtain ⟨st1, fv1, h1, hc1, hm1⟩ := auditOneFile_ok_frame hi
    obtain ⟨st2, fv2, h2, hm2⟩ :=
      auditFilesLoop_ok_frame (fun g hg => hids g (List.mem_cons_of_mem f hg))
    refine ⟨st2, fv2, ?_, ?_⟩
    · unfold auditFilesLoop
      rw [h1]
      dsimp only
      exact h2
    · rw [hm2, hm1]

lemma fileSection_ok_frame {co lc : Bool} {aL dL : Option (List String)} {env : Env}
    {files : List FileRec} {st : St}
    (hids : ∀ f ∈ files, f.id.isSome) (hcomp : st.component = []) :
    ∃ st2 fv, fileSection co lc aL dL env files st = .ok (st2, fv) ∧
      st2.auditMetadata = st.auditMetadata ∧ st2.component = [] := by
  unfold fileSection
  split
  next => exact ⟨st, true, rfl, rfl, hcomp⟩
  next =>
    obtain ⟨st2, fv2, h2, hm2⟩ :=
      @auditFilesLoop_ok_frame co lc aL dL env files (heading co st "File Summary") true hids
    dsimp only
    rw [h2]
    dsimp only
    split <;>
      exact ⟨_, _, rfl, by simp [hm2], rfl⟩

lemma processRef_ok_nodbg {off : Bool} {env : Env} {n v : Option String}
    {st : St} {lv ld : Option String} {pu cu : Bool} {r : ExtRef} :
    ∃ out, processRef false off env n v (st, lv, ld, pu, cu) r = .ok out := by
  rcases hp : env.parsePurl r.locator with _ | p <;>
    cases hcat : (r.cat == "PACKAGE-MANAGER" || r.cat == "PACKAGE_MANAGER") <;>
    cases hcpe : (r.rtype == "cpe22Type" || r.rtype == "cpe23Type") <;>
    simp [processRef, hp, hcat, hcpe]

lemma refsLoop_ok_nodbg {off : Bool} {env : Env} {n v : Option String} :
    ∀ {refs : List ExtRef}
      {acc : St × Option String × Option String × Bool × Bool},
      ∃ out, refsLoop false off env n v refs acc = .ok out
  | [], acc => ⟨acc, rfl⟩
  | r :: rs, acc => by
    obtain ⟨st, lv, ld, pu, cu⟩ := acc
    obtain ⟨out1, h1⟩ := @processRef_ok_nodbg off env n v st lv ld pu cu r
    obtain ⟨out2, h2⟩ := @refsLoop_ok_nodbg off env n v rs out1
    refine ⟨out2, ?_⟩
    unfold refsLoop
    rw [h1]
    exact h2

lemma auditOnePackage_ok_frame {co lc cc pc off : Bool} {mi ma : Int}
    {aL dL aP dP : Option (List String)} {env : Env}
    {st : St} {pv : Bool} {pkg : PackageRec} {i : String}
    (hid : pkg.id = some i) :
    ∃ st2 pv2, auditOnePackage co lc cc pc false off mi ma aL dL aP dP env st pv pkg
        = .ok (st2, pv2) ∧
      st2.component = [] ∧ st2.auditMetadata = st.auditMetadata := by
  unfold auditOnePackage
  rw [hid]
  dsimp only
  obtain ⟨acc, hrl⟩ := @refsLoop_ok_nodbg off env pkg.name pkg.version
    (pkg.externalreference.getD [])
    ({ st with nameVar := some pkg.name, versionVar := some pkg.version },
      none, none, false, false)
  obtain ⟨stR, lv, ld, pu, cu⟩ := acc
  rw [hrl]
  dsimp only
  have hsh := refsLoop_shape hrl
  dsimp only at hsh
  obtain ⟨hm, hn, hv, hb⟩ := auditOnePackageChecks_frame co lc cc pc mi ma aL dL aP dP env
    stR pkg i lv ld pu cu
  have hname : (auditOnePackageChecks co lc cc pc mi ma aL dL aP dP env
      stR pkg i lv ld pu cu).nameVar = some pkg.name := by
    rw [hn, hsh]
  have hver : (auditOnePackageChecks co lc cc pc mi ma aL dL aP dP env
      stR pkg i lv ld pu cu).versionVar = some pkg.version := by
    rw [hv, hsh]
  obtain ⟨stE, hE⟩ := pkgElementBlock_ok hname hver
  rw [hE]
  refine ⟨stE, _, rfl, (pkgElementBlock_shape hE).1, ?_⟩
  rw [(pkgElementBlock_shape hE).2.1, hm, hsh]

lemma auditPkgsLoop_ok_frame {co lc cc pc off : Bool} {mi ma : Int}
    {aL dL aP dP : Option (List String)} {env : Env} :
    ∀ {pkgs : List PackageRec} {st : St} {pv : Bool},
      (∀ p ∈ pkgs, p.id.isSome) →
      ∃ st2 pv2, auditPkgsLoop co lc cc pc false off mi ma aL dL aP dP env pkgs st pv
          = .ok (st2, pv2) ∧
        st2.auditMetadata = st.auditMetadata
  | [], st, pv, _ => ⟨st, pv, rfl, rfl⟩
  | p :: ps, st, pv, hids => by
    obtain ⟨i, hi⟩ := Option.isSome_iff_exists.mp (hids p (List.mem_cons_self p ps))
    obtain ⟨st1, pv1, h1, hc1, hm1⟩ := auditOnePackage_ok_frame hi
    obtain ⟨st2, pv2, h2, hm2⟩ :=
      auditPkgsLoop_ok_frame (fun q hq => hids q (List.mem_cons_of_mem p hq))
    refine ⟨st2, pv2, ?_, ?_⟩
    · unfold auditPkgsLoop
      rw [h1]
      dsimp only
      exact h2
    · rw [hm2, hm1]

lemma packageSection_ok_frame {co lc cc pc off : Bool} {mi ma : Int}
    {aL dL aP dP : Option (List String)} {env : Env}
    {pkgs : List PackageRec} {st : St}
    (hids : ∀ p ∈ pkgs, p.id.isSome) (hcomp : st.component = []) :
    ∃ st2 pv, packageSection co lc cc pc false off mi ma aL dL aP dP env pkgs st
        = .ok (st2, pv) ∧
      st2.auditMetadata = st.auditMetadata ∧ st2.component = [] := by
  unfold packageSection
  split
  next => exact ⟨st, true, rfl, rfl, hcomp⟩
  next =>
    obtain ⟨st2, pv2, h2, hm2⟩ :=
      @auditPkgsLoop_ok_frame co lc cc pc off mi ma aL dL aP dP env pkgs
        (heading co st "Package Summary") true hids
    dsimp only
    rw [h2]
    dsimp only
    split <;>
      exact ⟨_, _, rfl, by simp [hm2], rfl⟩

@[simp] lemma relCheckFile_auditMetadata (co : Bool) (rels : List RelRec) (st : St)
    (f : FileRec) : (relCheckFile co rels st f).auditMetadata = st.auditMetadata := by
  simp [relCheckFile]

@[simp] lemma relCheckPkg_auditMetadata (co : Bool) (rels : List RelRec) (st : St)
    (p : PackageRec) : (relCheckPkg co rels st p).auditMetadata = st.auditMetadata := by
  simp [relCheckPkg]

lemma relFilesLoop_auditMetadata (co : Bool) (rels : List RelRec) :
    ∀ (files : List FileRec) (st : St),
      (relFilesLoop co rels st files).auditMetadata = st.auditMetadata
  | [], st => rfl
  | f :: fs, st => by
    have h1 : relFilesLoop co rels st (f :: fs) =
        relFilesLoop co rels (relCheckFile co rels st f) fs := rfl
    rw [h1, relFilesLoop_auditMetadata co rels fs, relCheckFile_auditMetadata]

lemma relPkgsLoop_auditMetadata (co : Bool) (rels : List RelRec) :
    ∀ (pkgs : List PackageRec) (st : St),
      (relPkgsLoop co rels st pkgs).auditMetadata = st.auditMetadata
  | [], st => rfl
  | p :: ps, st => by
    have h1 : relPkgsLoop co rels st (p :: ps) =
        relPkgsLoop co rels (relCheckPkg co rels st p) ps := rfl
    rw [h1, relPkgsLoop_auditMetadata co rels ps, relCheckPkg_auditMetadata]

lemma relCheckFile_component_append (co : Bool) (rels : List RelRec) (st : St)
    (f : FileRec) :
    ∃ d, (relCheckFile co rels st f).component = st.component ++ d :=
  ⟨_, showResult_component co { st with nameVar := some f.name }
    ("Dependency relationship found for " ++ pyOpt f.name) (depFound f.name rels)
    none "MISSING" false⟩

lemma relCheckPkg_component_append (co : Bool) (rels : List RelRec) (st : St)
    (p : PackageRec) :
    ∃ d, (relCheckPkg co rels st p).component = st.component ++ d :=
  ⟨_, showResult_component co { st with nameVar := some p.name }
    ("Dependency relationship found for " ++ pyOpt p.name) (depFound p.name rels)
    none "MISSING" false⟩

lemma relFilesLoop_component_append (co : Bool) (rels : List RelRec) :
    ∀ (files : List FileRec) (st : St),
      ∃ d, (relFilesLoop co rels st files).component = st.component ++ d
  | [], st => ⟨[], by simp [relFilesLoop]⟩
  | f :: fs, st => by
    obtain ⟨d1, hd1⟩ := relCheckFile_component_append co rels st f
    obtain ⟨d2, hd2⟩ := relFilesLoop_component_append co rels fs (relCheckFile co rels st f)
    refine ⟨d1 ++ d2, ?_⟩
    have h1 : relFilesLoop co rels st (f :: fs) =
        relFilesLoop co rels (relCheckFile co rels st f) fs := rfl
    rw [h1, hd2, hd1, List.append_assoc]

lemma relPkgsLoop_component_append (co : Bool) (rels : List RelRec) :
    ∀ (pkgs : List PackageRec) (st : St),
      ∃ d, (relPkgsLoop co rels st pkgs).component = st.component ++ d
  | [], st => ⟨[], by simp [relPkgsLoop]⟩
  | p :: ps, st => by
    obtain ⟨d1, hd1⟩ := relCheckPkg_component_append co rels st p
    obtain ⟨d2, hd2⟩ := relPkgsLoop_component_append co rels ps (relCheckPkg co rels st p)
    refine ⟨d1 ++ d2, ?_⟩
    have h1 : relPkgsLoop co rels st (p :: ps) =
        relPkgsLoop co rels (relCheckPkg co rels st p) ps := rfl
    rw [h1, hd2, hd1, List.append_assoc]

lemma relationshipSection_head_meta (co : Bool) (st : St) (files : List FileRec)
    (pkgs : List PackageRec) (rels : List RelRec) (hcomp : st.component = []) :
    (relationshipSection co st false files pkgs rels).auditRelationships.head? =
      some ⟨"Dependency relationships provided for NTIA compliance: MISSING",
        CState.fail⟩ ∧
    (relationshipSection co st false files pkgs rels).auditMetadata =
      st.auditMetadata ∧
    (relationshipSection co st false files pkgs rels).component = [] := by
  unfold relationshipSection
  dsimp only
  rw [relFilesLoop_if_collapse, relPkgsLoop_if_collapse]
  set stC := check co (heading co st "Relationships Summary")
    "Dependency relationships provided for NTIA compliance" false "MISSING" false with hstC
  have hcompC : stC.component =
      ["Dependency relationships provided for NTIA compliance: MISSING"].map
        (fun t => (⟨t, CState.fail⟩ : Element)) := by
    rw [hstC]
    simp [showResult_component, hcomp,
      show failMsg "Dependency relationships provided for NTIA compliance" none "MISSING"
        = "Dependency relationships provided for NTIA compliance: MISSING" by decide]
  obtain ⟨d1, hd1⟩ := relFilesLoop_component_append co rels files stC
  obtain ⟨d2, hd2⟩ := relPkgsLoop_component_append co rels pkgs
    (relFilesLoop co rels stC files)
  refine ⟨?_, ?_, rfl⟩
  · split
    · simp [hd2, hd1, hcompC]
    · simp [hd2, hd1, hcompC]
  · split <;>
      simp [relPkgsLoop_auditMetadata, relFilesLoop_auditMetadata, hstC]

lemma ntiaAndSummary_frame (co : Bool) (st : St) (b : Bool) :
    (ntiaAndSummary co st b).auditMetadata = st.auditMetadata ∧
    (ntiaAndSummary co st b).auditRelationships = st.auditRelationships := by
  unfold ntiaAndSummary
  dsimp only
  split_ifs <;> simp

/-- C1: (amended): for an SBOM whose document kind is undetermined the
audit records exactly one hard failure `"SBOM Format: INVALID"` in the format
section, treats creator-identified, creation-time-valid and
relationships-valid as false (the relationship-NTIA check fails even when
relationships exist), and completes with a false verdict — *provided* debug
output is off and every file and package record carries an id; otherwise an
unrelated unbound-variable crash aborts the audit (see the counterexample). -/
theorem c1_invalid_sbom_amended (opts : Opts) (env : Env) (sbom : SBOM) (v : Bool)
    (hdoc : sbom.doctype = none) (hdbg : opts.debug = false)
    (hf : ∀ f ∈ sbom.files, f.id.isSome) (hp : ∀ p ∈ sbom.packages, p.id.isSome) :
    ∃ st, auditSbom opts env sbom (initSt v) = .ok (st, false) ∧
      st.auditMetadata = [⟨"SBOM Format: INVALID", CState.fail⟩] ∧
      st.auditRelationships.head? =
        some ⟨"Dependency relationships provided for NTIA compliance: MISSING",
          CState.fail⟩ := by
  unfold auditSbom auditRun
  rcases hfmt : formatSection opts.consoleOut sbom (initSt v) with ⟨st1, ci, ct, rv⟩
  have hprops := formatSection_none_props opts.consoleOut sbom (initSt v) hdoc
  rw [hfmt] at hprops
  obtain ⟨hsnd, hmeta1, hcomp1⟩ := hprops
  simp only [Prod.mk.injEq] at hsnd
  obtain ⟨hci, hct, hrv⟩ := hsnd
  subst hci hct hrv
  dsimp only at hmeta1 hcomp1
  dsimp only
  obtain ⟨st2, fv, hfs, hm2, hc2⟩ := fileSection_ok_frame hf hcomp1
  rw [hfs]
  dsimp only
  rw [hdbg]
  obtain ⟨st3, pv, hps, hm3, hc3⟩ := packageSection_ok_frame hp hc2
  rw [hps]
  dsimp only
  obtain ⟨hhead, hm4, hc4⟩ := relationshipSection_head_meta opts.consoleOut
    { st3 with auditPolicy := st3.policyComponent } sbom.files sbom.packages
    sbom.relationships hc3
  rw [finalVerdict_ci_false]
  dsimp only
  refine ⟨_, rfl, ?_, ?_⟩
  · have hh := (ntiaAndSummary_frame opts.consoleOut
      (heading opts.consoleOut (relationshipSection opts.consoleOut
        { st3 with auditPolicy := st3.policyComponent } false sbom.files sbom.packages
        sbom.relationships) "NTIA Summary") false).1
    rw [hh]
    simp only [heading_eq]
    rw [show ({ (relationshipSection opts.consoleOut
        { st3 with auditPolicy := st3.policyComponent } false sbom.files sbom.packages
        sbom.relationships) with console := _ } : St).auditMetadata =
      (relationshipSection opts.consoleOut
        { st3 with auditPolicy := st3.policyComponent } false sbom.files sbom.packages
        sbom.relationships).auditMetadata from rfl]
    rw [hm4]
    dsimp only
    rw [hm3, hm2, hmeta1]
  · have hh := (ntiaAndSummary_frame opts.consoleOut
      (heading opts.consoleOut (relationshipSection opts.consoleOut
        { st3 with auditPolicy := st3.policyComponent } false sbom.files sbom.packages
        sbom.relationships) "NTIA Summary") false).2
    rw [hh]
    simp only [heading_eq]
    rw [show ({ (relationshipSection opts.consoleOut
        { st3 with auditPolicy := st3.policyComponent } false sbom.files sbom.packages
        sbom.relationships) with console := _ } : St).auditRelationships =
      (relationshipSection opts.consoleOut
        { st3 with auditPolicy := st3.policyComponent } false sbom.files sbom.packages
        sbom.relationships).auditRelationships from rfl]
    rw [hhead]

/-- An undetermined-kind SBOM that nevertheless has creators, a creation time,
relationships, and id-bearing records (witness input for the amended C1). -/
def c1wsbom : SBOM :=
  ⟨none, none, some "2023-01-01T00:00:00Z", ["tooling"],
    [⟨some "f1", some "a", none, none, none⟩],
    [⟨some "p1", some "pkg", some "1.0", some "acme", none, none⟩],
    [⟨some "a", some "pkg"⟩]⟩

/-- Witness for `c1_invalid_sbom_amended` at a concrete undetermined-kind
SBOM. -/
theorem c1_invalid_sbom_amended_witness :
    ∃ st, auditSbom baseOpts baseEnv c1wsbom (initSt false) = .ok (st, false) ∧
      st.auditMetadata = [⟨"SBOM Format: INVALID", CState.fail⟩] ∧
      st.auditRelationships.head? =
        some ⟨"Dependency relationships provided for NTIA compliance: MISSING",
          CState.fail⟩ :=
  c1_invalid_sbom_amended baseOpts baseEnv c1wsbom false rfl rfl (by decide) (by decide)

/-! ## C6: offline mode -/

@[simp] lemma versionAndAgeChecks_policyCheckCount_ld_none (co : Bool) (mi ma : Int)
    (ad : String → Int) (st : St) (name version lv : Option String) :
    (versionAndAgeChecks co mi ma ad st name version lv none).policyCheckCount =
      st.policyCheckCount := by
  unfold versionAndAgeChecks
  cases lv <;> simp

@[simp] lemma versionAndAgeChecks_policyComponent_ld_none (co : Bool) (mi ma : Int)
    (ad : String → Int) (st : St) (name version lv : Option String) :
    (versionAndAgeChecks co mi ma ad st name version lv none).policyComponent =
      st.policyComponent := by
  unfold versionAndAgeChecks
  cases lv <;> simp

lemma auditOnePackageChecks_policy (co lc cc pc : Bool) (mi ma : Int) (env : Env)
    (st : St) (pkg : PackageRec) (i : String) (lv : Option String) (pu cu : Bool) :
    (auditOnePackageChecks co lc cc pc mi ma none none none none env st pkg i lv none
      pu cu).policyCheckCount = st.policyCheckCount ∧
    (auditOnePackageChecks co lc cc pc mi ma none none none none env st pkg i lv none
      pu cu).policyComponent = st.policyComponent := by
  unfold auditOnePackageChecks
  refine ⟨?_, ?_⟩ <;>
    cases pkg.name <;>
    rcases hpv : st.purlVar with _ | p0 <;>
    simp [hpv, apply_ite St.policyCheckCount, apply_ite St.policyComponent,
      apply_ite St.purlVar]

lemma processRef_offline_keeps {dbg : Bool} {env : Env} {n v : Option String}
    {st : St} {lv ld : Option String} {pu cu : Bool} {r : ExtRef}
    {out : St × Option String × Option String × Bool × Bool}
    (h : processRef dbg true env n v (st, lv, ld, pu, cu) r = .ok out) :
    out.2.1 = lv ∧ out.2.2.1 = ld := by
  rcases hp : env.parsePurl r.locator with _ | p <;>
    cases dbg <;>
    rcases hpv : st.purlVar with _ | p0 <;>
    cases hcat : (r.cat == "PACKAGE-MANAGER" || r.cat == "PACKAGE_MANAGER") <;>
    cases hcpe : (r.rtype == "cpe22Type" || r.rtype == "cpe23Type") <;>
    simp [processRef, hp, hpv, hcat, hcpe] at h <;>
    (try subst h) <;>
    (try simp)

lemma refsLoop_offline_keeps {dbg : Bool} {env : Env} {n v : Option String} :
    ∀ {refs : List ExtRef} {st : St} {lv ld : Option String} {pu cu : Bool}
      {out : St × Option String × Option String × Bool × Bool},
      refsLoop dbg true env n v refs (st, lv, ld, pu, cu) = .ok out →
      out.2.1 = lv ∧ out.2.2.1 = ld
  | [], st, lv, ld, pu, cu, out, h => by
    simp only [refsLoop, Except.ok.injEq] at h
    subst h
    exact ⟨rfl, rfl⟩
  | r :: rs, st, lv, ld, pu, cu, out, h => by
    unfold refsLoop at h
    split at h
    next => exact Except.noConfusion h
    next acc1 hp =>
      obtain ⟨st1, lv1, ld1, pu1, cu1⟩ := acc1
      obtain ⟨e1, e2⟩ := processRef_offline_keeps hp
      dsimp only at e1 e2
      subst e1 e2
      exact refsLoop_offline_keeps h

lemma auditOnePackage_policy_off {co lc cc pc dbg : Bool} {mi ma : Int} {env : Env}
    {st : St} {pv : Bool} {pkg : PackageRec} {st2 : St} {pv2 : Bool}
    (h : auditOnePackage co lc cc pc dbg true mi ma none none none none env st pv pkg
      = .ok (st2, pv2)) :
    st2.policyCheckCount = st.policyCheckCount ∧
    st2.policyComponent = st.policyComponent := by
  unfold auditOnePackage at h
  cases hid : pkg.id with
  | none =>
    rw [hid] at h
    dsimp only at h
    cases hpe : pkgElementBlock (check co st "Package id missing" false "MISSING" false) with
    | error e => rw [hpe] at h; exact Except.noConfusion h
    | ok stO =>
      rw [hpe] at h
      simp only [Except.ok.injEq, Prod.mk.injEq] at h
      obtain ⟨h1, -⟩ := h
      subst h1
      have hs := pkgElementBlock_shape hpe
      constructor
      · rw [hs.2.2.2.1]; simp
      · rw [hs.2.2.2.2.1]; simp
  | some i =>
    rw [hid] at h
    dsimp only at h
    cases hrl : refsLoop dbg true env pkg.name pkg.version (pkg.externalreference.getD [])
        ({ st with nameVar := some pkg.name, versionVar := some pkg.version },
          none, none, false, false) with
    | error e => rw [hrl] at h; exact Except.noConfusion h
    | ok acc =>
      obtain ⟨stR, lv, ld, pu, cu⟩ := acc
      rw [hrl] at h
      dsimp only at h
      obtain ⟨e1, e2⟩ := refsLoop_offline_keeps hrl
      dsimp only at e1 e2
      subst e1 e2
      cases hpe : pkgElementBlock (auditOnePackageChecks co lc cc pc mi ma
          none none none none env stR pkg i none none pu cu) with
      | error e => rw [hpe] at h; exact Except.noConfusion h
      | ok stO =>
        rw [hpe] at h
        simp only [Except.ok.injEq, Prod.mk.injEq] at h
        obtain ⟨h1, -⟩ := h
        subst h1
        have hsE := pkgElementBlock_shape hpe
        have hsR := refsLoop_shape hrl
        dsimp only at hsR
        obtain ⟨hq1, hq2⟩ := auditOnePackageChecks_policy co lc cc pc mi ma env stR pkg i
          none pu cu
        constructor
        · rw [hsE.2.2.2.1, hq1, hsR]
        · rw [hsE.2.2.2.2.1, hq2, hsR]

lemma auditPkgsLoop_policy_off {co lc cc pc dbg : Bool} {mi ma : Int} {env : Env} :
    ∀ {pkgs : List PackageRec} {st : St} {pv : Bool} {st2 : St} {pv2 : Bool},
      auditPkgsLoop co lc cc pc dbg true mi ma none none none none env pkgs st pv
        = .ok (st2, pv2) →
      st2.policyCheckCount = st.policyCheckCount ∧
      st2.policyComponent = st.policyComponent
  | [], st, pv, st2, pv2, h => by
    simp only [auditPkgsLoop, Except.ok.injEq, Prod.mk.injEq] at h
    obtain ⟨h1, -⟩ := h
    subst h1
    exact ⟨rfl, rfl⟩
  | p :: ps, st, pv, st2, pv2, h => by
    unfold auditPkgsLoop at h
    cases hone : auditOnePackage co lc cc pc dbg true mi ma none none none none env
        st pv p with
    | error e => rw [hone] at h; exact Except.noConfusion h
    | ok q =>
      obtain ⟨st1, pv1⟩ := q
      rw [hone] at h
      dsimp only at h
      obtain ⟨a1, a2⟩ := auditOnePackage_policy_off hone
      obtain ⟨b1, b2⟩ := auditPkgsLoop_policy_off h
      exact ⟨by rw [b1, a1], by rw [b2, a2]⟩

/-- The package-section half of the amended C6: offline, with no allow/deny
lists, the package audit leaves the policy tier untouched (no freshness-policy
outcome is recorded). -/
lemma packageSection_policy_off {co lc cc pc dbg : Bool} {mi ma : Int} {env : Env}
    {pkgs : List PackageRec} {st : St} {st2 : St} {pv : Bool}
    (h : packageSection co lc cc pc dbg true mi ma none none none none env pkgs st
      = .ok (st2, pv)) :
    st2.policyCheckCount = st.policyCheckCount ∧
    st2.policyComponent = st.policyComponent := by
  unfold packageSection at h
  split at h
  next =>
    simp only [Except.ok.injEq, Prod.mk.injEq] at h
    obtain ⟨h1, -⟩ := h
    subst h1
    exact ⟨rfl, rfl⟩
  next =>
    dsimp only at h
    cases hl : auditPkgsLoop co lc cc pc dbg true mi ma none none none none env pkgs
        (heading co st "Package Summary") true with
    | error e => rw [hl] at h; exact Except.noConfusion h
    | ok q =>
      obtain ⟨stL, pvL⟩ := q
      rw [hl] at h
      dsimp only at h
      simp only [Except.ok.injEq, Prod.mk.injEq] at h
      obtain ⟨h1, -⟩ := h
      subst h1
      obtain ⟨b1, b2⟩ := auditPkgsLoop_policy_off hl
      constructor
      · simp only [heading_eq] at b1
        split <;> simp [b1]
      · simp only [heading_eq] at b2
        split <;> simp [b2]

lemma processRef_offline_eq {dbg b1 b2 : Bool} {env : Env} {n v : Option String}
    {st : St} {pu cu : Bool} {r : ExtRef}
    (hno1 : ∀ a b, env.findLatestVersion a b = (none, none))
    (hno2 : ∀ a b, env.packageInfo a b = (none, none)) :
    processRef dbg b1 env n v (st, none, none, pu, cu) r =
      processRef dbg b2 env n v (st, none, none, pu, cu) r := by
  rcases hp : env.parsePurl r.locator with _ | p <;>
    cases hcat : (r.cat == "PACKAGE-MANAGER" || r.cat == "PACKAGE_MANAGER") <;>
    cases hcpe : (r.rtype == "cpe22Type" || r.rtype == "cpe23Type") <;>
    simp [processRef, hp, hcat, hcpe, hno1, hno2]

lemma processRef_nores_keeps {dbg b : Bool} {env : Env} {n v : Option String}
    {st : St} {pu cu : Bool} {r : ExtRef}
    {out : St × Option String × Option String × Bool × Bool}
    (hno1 : ∀ a b, env.findLatestVersion a b = (none, none))
    (hno2 : ∀ a b, env.packageInfo a b = (none, none))
    (h : processRef dbg b env n v (st, none, none, pu, cu) r = .ok out) :
    out.2.1 = none ∧ out.2.2.1 = none := by
  rcases hp : env.parsePurl r.locator with _ | p <;>
    cases dbg <;> cases b <;>
    rcases hpv : st.purlVar with _ | p0 <;>
    cases hcat : (r.cat == "PACKAGE-MANAGER" || r.cat == "PACKAGE_MANAGER") <;>
    cases hcpe : (r.rtype == "cpe22Type" || r.rtype == "cpe23Type") <;>
    simp [processRef, hp, hpv, hcat, hcpe, hno1, hno2] at h <;>
    (try subst h) <;>
    (try simp [hno1, hno2])

lemma refsLoop_offline_eq {dbg b1 b2 : Bool} {env : Env} {n v : Option String}
    (hno1 : ∀ a b, env.findLatestVersion a b = (none, none))
    (hno2 : ∀ a b, env.packageInfo a b = (none, none)) :
    ∀ (refs : List ExtRef) (st : St) (pu cu : Bool),
      refsLoop dbg b1 env n v refs (st, none, none, pu, cu) =
        refsLoop dbg b2 env n v refs (st, none, none, pu, cu)
  | [], st, pu, cu => rfl
  | r :: rs, st, pu, cu => by
    unfold refsLoop
    rw [processRef_offline_eq hno1 hno2]
    cases hp : processRef dbg b2 env n v (st, none, none, pu, cu) r with
    | error e => rfl
    | ok acc =>
      obtain ⟨st1, lv1, ld1, pu1, cu1⟩ := acc
      obtain ⟨e1, e2⟩ := processRef_nores_keeps hno1 hno2 hp
      dsimp only at e1 e2
      subst e1 e2
      dsimp only
      exact refsLoop_offline_eq hno1 hno2 rs st1 pu1 cu1

lemma auditOnePackage_offline_eq {co lc cc pc dbg b1 b2 : Bool} {mi ma : Int}
    {aL dL aP dP : Option (List String)} {env : Env} {st : St} {pv : Bool}
    {pkg : PackageRec}
    (hno1 : ∀ a b, env.findLatestVersion a b = (none, none))
    (hno2 : ∀ a b, env.packageInfo a b = (none, none)) :
    auditOnePackage co lc cc pc dbg b1 mi ma aL dL aP dP env st pv pkg =
      auditOnePackage co lc cc pc dbg b2 mi ma aL dL aP dP env st pv pkg := by
  unfold auditOnePackage
  cases hid : pkg.id with
  | none => rfl
  | some i =>
    dsimp only
    rw [refsLoop_offline_eq hno1 hno2]

lemma auditPkgsLoop_offline_eq {co lc cc pc dbg b1 b2 : Bool} {mi ma : Int}
    {aL dL aP dP : Option (List String)} {env : Env}
    (hno1 : ∀ a b, env.findLatestVersion a b = (none, none))
    (hno2 : ∀ a b, env.packageInfo a b = (none, none)) :
    ∀ (pkgs : List PackageRec) (st : St) (pv : Bool),
      auditPkgsLoop co lc cc pc dbg b1 mi ma aL dL aP dP env pkgs st pv =
        auditPkgsLoop co lc cc pc dbg b2 mi ma aL dL aP dP env pkgs st pv
  | [], st, pv => rfl
  | p :: ps, st, pv => by
    unfold auditPkgsLoop
    rw [auditOnePackage_offline_eq hno1 hno2]
    cases hp : auditOnePackage co lc cc pc dbg b2 mi ma aL dL aP dP env st pv p with
    | error e => rfl
    | ok q =>
      obtain ⟨st1, pv1⟩ := q
      dsimp only
      exact auditPkgsLoop_offline_eq hno1 hno2 ps st1 pv1

lemma packageSection_offline_eq {co lc cc pc dbg b1 b2 : Bool} {mi ma : Int}
    {aL dL aP dP : Option (List String)} {env : Env}
    {pkgs : List PackageRec} {st : St}
    (hno1 : ∀ a b, env.findLatestVersion a b = (none, none))
    (hno2 : ∀ a b, env.packageInfo a b = (none, none)) :
    packageSection co lc cc pc dbg b1 mi ma aL dL aP dP env pkgs st =
      packageSection co lc cc pc dbg b2 mi ma aL dL aP dP env pkgs st := by
  unfold packageSection
  split
  next => rfl
  next =>
    dsimp only
    rw [auditPkgsLoop_offline_eq hno1 hno2]

lemma auditRun_offline_eq {co lc cc pc dbg b1 b2 : Bool} {mi ma : Int}
    {aLs dLs : Dict} {env : Env} {sbom : SBOM} {st0 : St}
    (hno1 : ∀ a b, env.findLatestVersion a b = (none, none))
    (hno2 : ∀ a b, env.packageInfo a b = (none, none)) :
    auditRun co lc cc pc dbg b1 mi ma aLs dLs env sbom st0 =
      auditRun co lc cc pc dbg b2 mi ma aLs dLs env sbom st0 := by
  unfold auditRun
  rcases hfmt : formatSection co sbom st0 with ⟨st1, ci, ct, rv⟩
  dsimp only
  cases hfs : fileSection co lc (aLs.lookup "license") (dLs.lookup "license") env
      sbom.files st1 with
  | error e => rfl
  | ok q =>
    obtain ⟨st2, fv⟩ := q
    dsimp only
    rw [packageSection_offline_eq hno1 hno2]

/-- The ordinary-tier counters of a finished run. -/
def ordCountsOf (r : Except PyErr (St × Bool)) : Option Counts :=
  match r with
  | .ok (st, _) => some st.checkCount
  | .error _ => none

/-- A resolving oracle environment: the PURL parses, and the registry returns
a newer latest version with a release date. -/
def c6env : Env :=
  { findLicense := fun _ => "MIT"
    osiApproved := fun _ => true
    deprecated := fun _ => false
    parsePurl := fun _ => some ⟨"pypi", "pkg"⟩
    findLatestVersion := fun _ _ => (some "2.0", some "2020-01-01")
    packageInfo := fun _ _ => (none, none)
    ageDays := fun _ => 100 }

/-- A valid SPDX document with one package carrying a package-manager
reference (its declared version is older than the registry's latest). -/
def c6sbom : SBOM :=
  ⟨some "spdx", some "SPDX-2.3", some "2023-01-01T00:00:00Z", ["tooling"], [],
    [⟨some "p1", some "pkg", some "1.0", some "acme", some "MIT",
      some [⟨"PACKAGE-MANAGER", "purl", "pkg:pypi/pkg"⟩]⟩],
    [⟨some "pkg", some "x"⟩]⟩

/-- C6 counterexample: toggling offline mode does *not* leave the
ordinary-tier counters unchanged — when a lookup resolves a latest version,
the online run records an extra ordinary-tier "Using latest version" check
(failing here), so the ordinary counters differ between the two runs that
differ only in the offline flag. -/
theorem c6_offline_counters_counterexample :
    ordCountsOf (auditSbom baseOpts c6env c6sbom (initSt false)) = some ⟨13, 1⟩ ∧
    ordCountsOf (auditSbom { baseOpts with offline := true } c6env c6sbom
      (initSt false)) = some ⟨13, 0⟩ ∧
    ordCountsOf (auditSbom baseOpts c6env c6sbom (initSt false)) ≠
      ordCountsOf (auditSbom { baseOpts with offline := true } c6env c6sbom
        (initSt false)) := by
  refine ⟨by decide, by decide, ?_⟩
  decide

/-- C6: (amended): offline mode records no freshness-policy outcome — with
no allow/deny lists the offline package audit leaves both policy-tier
counters and the policy report untouched — and the ordinary-tier counters
agree with the online run *provided* no lookup resolves anything (the two
runs are then identical in full); in general the online run may additionally
record an ordinary-tier latest-version check per resolved package. -/
theorem c6_offline_amended :
    (∀ (co lc cc pc dbg : Bool) (mi ma : Int) (env : Env) (pkgs : List PackageRec)
        (st st2 : St) (pv : Bool),
      packageSection co lc cc pc dbg true mi ma none none none none env pkgs st
          = .ok (st2, pv) →
      st2.policyCheckCount = st.policyCheckCount ∧
        st2.policyComponent = st.policyComponent) ∧
    (∀ (opts : Opts) (env : Env) (sbom : SBOM) (st0 : St),
      (∀ a b, env.findLatestVersion a b = (none, none)) →
      (∀ a b, env.packageInfo a b = (none, none)) →
      auditSbom { opts with offline := true } env sbom st0 =
        auditSbom { opts with offline := false } env sbom st0) := by
  constructor
  · intro co lc cc pc dbg mi ma env pkgs st st2 pv h
    exact packageSection_policy_off h
  · intro opts env sbom st0 hno1 hno2
    exact auditRun_offline_eq hno1 hno2

/-- The result pair of a concrete offline package-section run. -/
def c6apair : St × Bool :=
  (packageSection false true false false false true 0 730 none none none none baseEnv
    c6sbom.packages (initSt false)).toOption.getD (initSt false, false)

/-- Witness for `c6_offline_amended` at concrete inputs (the no-resolve
environment is `baseEnv`, whose lookups are constantly `(none, none)`). -/
theorem c6_offline_amended_witness :
    (c6apair.1.policyCheckCount = (initSt false).policyCheckCount ∧
      c6apair.1.policyComponent = (initSt false).policyComponent) ∧
    auditSbom { baseOpts with offline := true } baseEnv c6sbom (initSt false) =
      auditSbom { baseOpts with offline := false } baseEnv c6sbom (initSt false) :=
  ⟨c6_offline_amended.1 false true false false false 0 730 baseEnv c6sbom.packages
      (initSt false) c6apair.1 c6apair.2 (by decide),
   c6_offline_amended.2 baseOpts baseEnv c6sbom (initSt false)
      (fun _ _ => rfl) (fun _ _ => rfl)⟩

end SbomAudit
